import Mathlib

/-!
Shallow embedding of the Deno CLI permission engine (`cli/permissions.rs`)
and proofs checking the natural-language specification against it.

Modelling conventions:
* Rust `HashSet<T>` is modelled as `List T` with membership-based set
  operations (`contains`, `insert` that deduplicates, `retain` = `filter`,
  superset/subset tests).  All claims are about membership, so the list
  representation is faithful.
* A filesystem path is a list of segments (`Segs`); raw user input is a
  `RawPath` (absolute flag + components, possibly containing "." / "..").
  Rust `Path::starts_with` is segment-wise prefix, i.e. `List.isPrefixOf`.
* `ErrBox::new(kind, msg)` is the structure `ErrBox`.
* The interactive prompt (`permission_prompt`, a TTY read; stubbed by an
  atomic boolean under test builds) is modelled by passing the prompt's
  boolean answer as an explicit argument to the `request_*` functions.
  The prompt message strings have no observable effect on the state and
  are elided.
* The ambient current working directory (read inside `resolve_from_cwd`)
  is passed explicitly as a normalized absolute segment list `cwd`.
-/

namespace DenoPerm

/-- Tri-state permission value, `cli/permissions.rs` `PermissionState`
(`Granted = 0`, `Prompt = 1`, `Denied = 2`). -/
inductive PermissionState where
  | Granted
  | Prompt
  | Denied
deriving DecidableEq, Repr

/-- Numeric code of a `PermissionState` (the Rust discriminant). -/
def PermissionState.code : PermissionState → Nat
  | .Granted => 0
  | .Prompt => 1
  | .Denied => 2

/-- `ErrBox::new(kind, msg)`: a structured error with a kind tag and a
human-readable message. -/
structure ErrBox where
  kind : String
  msg : String
deriving DecidableEq, Repr

/-- Path segments of an absolute path (below the root). -/
abbrev Segs := List String

/-- Raw path input: whether it is absolute, and its components, which may
still contain "." and ".." traversal segments. -/
structure RawPath where
  absolute : Bool
  comps : List String
deriving DecidableEq, Repr

/-- Modelled from the spec: `cli/fs.rs`'s `normalize_path` is not under
`src/`.  The spec (§9, path normalization policy): traversal is purely
lexical, "." segments are dropped and ".." segments fold away the previous
segment; no filesystem access. -/
def normalizeInto (acc : Segs) : List String → Segs
  | [] => acc
  | c :: rest =>
    if c = "." then normalizeInto acc rest
    else if c = ".." then normalizeInto acc.dropLast rest
    else normalizeInto (acc ++ [c]) rest

/-- Modelled from the spec: `cli/fs.rs`'s `resolve_from_cwd` is not under
`src/`.  The spec (§9): the current working directory is prepended to
relative inputs, and "." / ".." segments are folded. -/
def resolve_from_cwd (cwd : Segs) (p : RawPath) : Segs :=
  if p.absolute then normalizeInto [] p.comps else normalizeInto cwd p.comps

/-- Rust `path.starts_with(base)` on absolute paths: `base` is a
path-segment prefix of `path`. -/
def segStartsWith (path base : Segs) : Bool :=
  base.isPrefixOf path

/-- `HashSet::insert` on the list model: add the element unless present. -/
def hsInsert {T : Type} [BEq T] (s : List T) (x : T) : List T :=
  if s.contains x then s else x :: s

/-- `a.is_superset(&b)`: every element of `b` is in `a`. -/
def hsSuperset {T : Type} [BEq T] (a b : List T) : Bool :=
  b.all (fun x => a.contains x)

/-- `a.is_subset(&b)`: every element of `a` is in `b`. -/
def hsSubset {T : Type} [BEq T] (a b : List T) : Bool :=
  a.all (fun x => b.contains x)

/-- `UnaryPermission<T>`: global default plus explicit allow / deny lists. -/
structure UnaryPermission (T : Type) where
  global_state : PermissionState := .Prompt
  granted_list : List T := []
  denied_list : List T := []
deriving DecidableEq, Repr

/-- The `Permissions` aggregate: seven resource classes. -/
structure Permissions where
  read : UnaryPermission Segs := {}
  write : UnaryPermission Segs := {}
  net : UnaryPermission String := {}
  env : PermissionState := .Prompt
  run : PermissionState := .Prompt
  plugin : PermissionState := .Prompt
  hrtime : PermissionState := .Prompt
deriving DecidableEq, Repr

/-- `check_path_allowlist`: some allow-list entry is a segment prefix of
the target (the target is the entry or a descendant of it). -/
def check_path_allowlist (path : Segs) (allowlist : List Segs) : Bool :=
  allowlist.any (fun e => segStartsWith path e)

/-- `check_path_blocklist`: some deny-list entry equals the target or is a
descendant of it (the entry starts with the target). -/
def check_path_blocklist (path : Segs) (blocklist : List Segs) : Bool :=
  blocklist.any (fun e => segStartsWith e path)

/-- Decimal digit character for `d < 10`. -/
def digitChar (d : Nat) : Char :=
  Char.ofNat (48 + d)

/-- Fuel-based digit extraction, structurally recursive so that it
reduces inside the kernel; `fuel = n + 1` always suffices since the
argument shrinks by a factor of ten each step. -/
def decimalCharsAux : Nat → Nat → List Char
  | 0, _ => []
  | fuel + 1, n =>
    if n < 10 then [digitChar n]
    else decimalCharsAux fuel (n / 10) ++ [digitChar (n % 10)]

/-- Decimal digit characters of a natural number (how Rust `format!`
renders a `u16` port). -/
def decimalChars (n : Nat) : List Char :=
  decimalCharsAux (n + 1) n

/-- Decimal rendering of a natural number as a string. -/
def decimalRepr (n : Nat) : String :=
  String.mk (decimalChars n)

/-- `check_host_and_port_list`: the set contains the bare host, or a port
is present and the set contains the literal `"host:port"` string. -/
def check_host_and_port_list (host : String) (port : Option Nat)
    (allowlist : List String) : Bool :=
  allowlist.contains host ||
    (match port with
     | none => false
     | some p => allowlist.contains (host ++ ":" ++ decimalRepr p))

/-- `PermissionState::check`: success exactly on `Granted` (the debug log
has no observable effect on the result), otherwise a `PermissionDenied`
error with the message `"{msg}, run again with the {flag} flag"`. -/
def PermissionState.check (s : PermissionState) (msg flag : String) :
    Except ErrBox Unit :=
  if s = .Granted then .ok ()
  else .error ⟨"PermissionDenied", msg ++ ", run again with the " ++ flag ++ " flag"⟩

/-- `PermissionState::check_fork`: fail when the parent is `Denied` and the
child is not, or the parent is `Prompt` and the child is `Granted`. -/
def PermissionState.check_fork (s other : PermissionState) :
    Except ErrBox Unit :=
  if (s = .Denied && other != .Denied) || (s = .Prompt && other = .Granted) then
    .error ⟨"PermissionDenied", "Arguments escalate parent permissions"⟩
  else .ok ()

/-- `UnaryPermission::check_fork`: scalar check on the global states, then
`granted_list` superset and `denied_list` subset checks. -/
def UnaryPermission.check_fork {T : Type} [BEq T]
    (s other : UnaryPermission T) : Except ErrBox Unit :=
  match s.global_state.check_fork other.global_state with
  | .error e => .error e
  | .ok () =>
    if !hsSuperset s.granted_list other.granted_list then
      .error ⟨"PermissionDenied", "Arguments escalate parent permissions"⟩
    else if !hsSubset s.denied_list other.denied_list then
      .error ⟨"PermissionDenied", "Arguments escalate parent permissions"⟩
    else .ok ()

/-- `Permissions::query_read`: resolve the target from cwd, then `Denied`
when globally denied and the blocklist matches (or there is no target),
else `Granted` when globally granted or the allowlist matches, else
`Prompt`. -/
def Permissions.query_read (perms : Permissions) (cwd : Segs)
    (path : Option RawPath) : PermissionState :=
  let path := path.map (resolve_from_cwd cwd)
  if perms.read.global_state = .Denied &&
      (match path with
       | none => true
       | some p => check_path_blocklist p perms.read.denied_list) then
    .Denied
  else if perms.read.global_state = .Granted ||
      (match path with
       | none => false
       | some p => check_path_allowlist p perms.read.granted_list) then
    .Granted
  else .Prompt

/-- `Permissions::query_write`: same shape as `query_read` over the write
class. -/
def Permissions.query_write (perms : Permissions) (cwd : Segs)
    (path : Option RawPath) : PermissionState :=
  let path := path.map (resolve_from_cwd cwd)
  if perms.write.global_state = .Denied &&
      (match path with
       | none => true
       | some p => check_path_blocklist p perms.write.denied_list) then
    .Denied
  else if perms.write.global_state = .Granted ||
      (match path with
       | none => false
       | some p => check_path_allowlist p perms.write.granted_list) then
    .Granted
  else .Prompt

/-- `Permissions::query_net`: `Denied` when globally denied or the deny
list matches the host/port, else `Granted` when globally granted or the
allow list matches, else `Prompt`. -/
def Permissions.query_net (perms : Permissions) (host : String)
    (port : Option Nat) : PermissionState :=
  if perms.net.global_state = .Denied ||
      check_host_and_port_list host port perms.net.denied_list then
    .Denied
  else if perms.net.global_state = .Granted ||
      check_host_and_port_list host port perms.net.granted_list then
    .Granted
  else .Prompt

/-- A parsed URL: scheme, optional host, optional explicit port. -/
structure Url where
  scheme : String
  host : Option String
  port : Option Nat
deriving DecidableEq, Repr

/-- Modelled from the spec: the `url` crate's well-known default ports per
scheme (spec §9: "443 for https, 80 for http, etc."). -/
def defaultPort (scheme : String) : Option Nat :=
  if scheme = "http" then some 80
  else if scheme = "https" then some 443
  else if scheme = "ws" then some 80
  else if scheme = "wss" then some 443
  else if scheme = "ftp" then some 21
  else none

/-- `url.port_or_known_default()`: the explicit port if set, else the
scheme's well-known default. -/
def Url.port_or_known_default (u : Url) : Option Nat :=
  match u.port with
  | some p => some p
  | none => defaultPort u.scheme

/-- Numeric value of a list of decimal digit characters. -/
def digitsToNat (cs : List Char) : Nat :=
  cs.foldl (fun n c => 10 * n + (c.toNat - 48)) 0

/-- A character that may appear in a URL scheme position (anything up to
the first ':' or '/'). -/
def schemeChar (c : Char) : Bool :=
  !(c = ':' || c = '/')

/-- Modelled from the spec: the `url` crate's `Url::parse` (an external
library) restricted to the grammar the spec names, `<scheme>://<host>`
`[:port][/subpath]` (§4.2, §9).  Inputs with a scheme but no `"//"`
authority (e.g. `"mailto:a@b"`, `"localhost:235"`, `"file:/1.txt"`) parse
successfully but have no host, as the source comment at
`Permissions::query_net_url` describes.  Anything else is a parse error. -/
def parseUrl (s : String) : Except ErrBox Url :=
  let cs := s.data
  let schemeChars := cs.takeWhile schemeChar
  match cs.dropWhile schemeChar with
  | ':' :: '/' :: '/' :: tail =>
    let authority := tail.takeWhile (fun c => c ≠ '/')
    let hostChars := authority.takeWhile (fun c => c ≠ ':')
    if hostChars.isEmpty then
      .error ⟨"TypeError", "empty host"⟩
    else if hostChars.length = authority.length then
      .ok ⟨String.mk schemeChars, some (String.mk hostChars), none⟩
    else
      let portChars := authority.drop (hostChars.length + 1)
      if portChars.isEmpty then
        .ok ⟨String.mk schemeChars, some (String.mk hostChars), none⟩
      else if portChars.all Char.isDigit then
        .ok ⟨String.mk schemeChars, some (String.mk hostChars),
             some (digitsToNat portChars)⟩
      else .error ⟨"TypeError", "invalid port number"⟩
  | ':' :: _ => .ok ⟨String.mk schemeChars, none, none⟩
  | _ => .error ⟨"TypeError", "relative URL without a base"⟩

/-- `Permissions::query_net_url`: no URL reports the global state; a URL is
parsed, must have a host (else a `URIError`), and is then matched as
host + effective port. -/
def Permissions.query_net_url (perms : Permissions) (url : Option String) :
    Except ErrBox PermissionState :=
  match url with
  | none => .ok perms.net.global_state
  | some u =>
    match parseUrl u with
    | .error e => .error e
    | .ok parsed =>
      match parsed.host with
      | none =>
        .error ⟨"URIError", "invalid urlormat: <scheme>://<host>[:port][/subpath]"⟩
      | some h => .ok (perms.query_net h parsed.port_or_known_default)

/-- `Permissions::query_env`. -/
def Permissions.query_env (perms : Permissions) : PermissionState :=
  perms.env

/-- `Permissions::query_run`. -/
def Permissions.query_run (perms : Permissions) : PermissionState :=
  perms.run

/-- `Permissions::query_plugin`. -/
def Permissions.query_plugin (perms : Permissions) : PermissionState :=
  perms.plugin

/-- `Permissions::query_hrtime`. -/
def Permissions.query_hrtime (perms : Permissions) : PermissionState :=
  perms.hrtime

/-- Rendering of a raw path for display messages. -/
def rawDisplay (p : RawPath) : String :=
  (if p.absolute then "/" else "") ++ String.intercalate "/" p.comps

/-- Rendering of a resolved absolute path for display messages. -/
def segsDisplay (s : Segs) : String :=
  "/" ++ String.intercalate "/" s

/-- Rendering of a parsed URL for display messages. -/
def urlDisplay (u : Url) : String :=
  u.scheme ++ "://" ++ u.host.getD "" ++
    (match u.port with
     | none => ""
     | some p => ":" ++ decimalRepr p)

/-- `Permissions::resolved_and_display_path`: the cwd-resolved path, and a
display form that only reveals the resolved form when the caller may read
the current working directory. -/
def Permissions.resolved_and_display_path (perms : Permissions) (cwd : Segs)
    (path : RawPath) : Segs × String :=
  let resolved := resolve_from_cwd cwd path
  let display :=
    if path.absolute then rawDisplay path
    else
      match (perms.query_read cwd (some ⟨true, cwd⟩)).check "" "" with
      | .ok _ => segsDisplay resolved
      | .error _ => rawDisplay path
  (resolved, display)

/-- `Permissions::check_read`. -/
def Permissions.check_read (perms : Permissions) (cwd : Segs)
    (path : RawPath) : Except ErrBox Unit :=
  let rd := perms.resolved_and_display_path cwd path
  (perms.query_read cwd (some ⟨true, rd.1⟩)).check
    ("read access to \"" ++ rd.2 ++ "\"") "--allow-read"

/-- `Permissions::check_read_blind`: as `check_read` but the message shows
the given label instead of the path. -/
def Permissions.check_read_blind (perms : Permissions) (cwd : Segs)
    (path : RawPath) (display : String) : Except ErrBox Unit :=
  let resolved := resolve_from_cwd cwd path
  (perms.query_read cwd (some ⟨true, resolved⟩)).check
    ("read access to <" ++ display ++ ">") "--allow-read"

/-- `Permissions::check_write`. -/
def Permissions.check_write (perms : Permissions) (cwd : Segs)
    (path : RawPath) : Except ErrBox Unit :=
  let rd := perms.resolved_and_display_path cwd path
  (perms.query_write cwd (some ⟨true, rd.1⟩)).check
    ("write access to \"" ++ rd.2 ++ "\"") "--allow-write"

/-- `Permissions::check_net`. -/
def Permissions.check_net (perms : Permissions) (host : String) (port : Nat) :
    Except ErrBox Unit :=
  (perms.query_net host (some port)).check
    ("network access to \"" ++ host ++ ":" ++ decimalRepr port ++ "\"")
    "--allow-net"

/-- `Permissions::check_net_url`: takes an already-parsed URL, requires a
host, then checks host + effective port. -/
def Permissions.check_net_url (perms : Permissions) (u : Url) :
    Except ErrBox Unit :=
  match u.host with
  | none => .error ⟨"URIError", "missing host"⟩
  | some host =>
    (perms.query_net host u.port_or_known_default).check
      ("network access to \"" ++ urlDisplay u ++ "\"") "--allow-net"

/-- `Permissions::check_env`. -/
def Permissions.check_env (perms : Permissions) : Except ErrBox Unit :=
  perms.env.check "access to environment variables" "--allow-env"

/-- `Permissions::check_run`. -/
def Permissions.check_run (perms : Permissions) : Except ErrBox Unit :=
  perms.run.check "access to run a subprocess" "--allow-run"

/-- `Permissions::check_plugin`. -/
def Permissions.check_plugin (perms : Permissions) (cwd : Segs)
    (path : RawPath) : Except ErrBox Unit :=
  let rd := perms.resolved_and_display_path cwd path
  perms.plugin.check ("access to open a plugin: " ++ rd.2) "--allow-plugin"

/-- `Permissions::check_hrtime`.  NOTE: the source passes `"--allow-run"`
as the flag name here (line 596 of `cli/permissions.rs`). -/
def Permissions.check_hrtime (perms : Permissions) : Except ErrBox Unit :=
  perms.hrtime.check "access to high precision time" "--allow-run"

/-- `Permissions::request_read`: interactive acquisition for the read
class; the prompt's boolean answer is the `prompt` argument. -/
def Permissions.request_read (perms : Permissions) (cwd : Segs)
    (path : Option RawPath) (prompt : Bool) : PermissionState × Permissions :=
  match path with
  | some p =>
    let resolved := (perms.resolved_and_display_path cwd p).1
    let state := perms.query_read cwd (some ⟨true, resolved⟩)
    if state = .Prompt then
      if prompt then
        let kept := perms.read.granted_list.filter
          (fun q => !(segStartsWith q resolved))
        (.Granted,
         { perms with read := { perms.read with
             granted_list := hsInsert kept resolved } })
      else
        let kept := perms.read.denied_list.filter
          (fun q => !(segStartsWith resolved q))
        (.Denied,
         { perms with read := { perms.read with
             denied_list := hsInsert kept resolved,
             global_state := .Denied } })
    else (state, perms)
  | none =>
    let state := perms.query_read cwd none
    if state = .Prompt then
      if prompt then
        (.Granted,
         { perms with read := { perms.read with
             granted_list := [], global_state := .Granted } })
      else
        (.Denied,
         { perms with read := { perms.read with global_state := .Denied } })
    else (state, perms)

/-- `Permissions::request_write`: as `request_read` for the write class. -/
def Permissions.request_write (perms : Permissions) (cwd : Segs)
    (path : Option RawPath) (prompt : Bool) : PermissionState × Permissions :=
  match path with
  | some p =>
    let resolved := (perms.resolved_and_display_path cwd p).1
    let state := perms.query_write cwd (some ⟨true, resolved⟩)
    if state = .Prompt then
      if prompt then
        let kept := perms.write.granted_list.filter
          (fun q => !(segStartsWith q resolved))
        (.Granted,
         { perms with write := { perms.write with
             granted_list := hsInsert kept resolved } })
      else
        let kept := perms.write.denied_list.filter
          (fun q => !(segStartsWith resolved q))
        (.Denied,
         { perms with write := { perms.write with
             denied_list := hsInsert kept resolved,
             global_state := .Denied } })
    else (state, perms)
  | none =>
    let state := perms.query_write cwd none
    if state = .Prompt then
      if prompt then
        (.Granted,
         { perms with write := { perms.write with
             granted_list := [], global_state := .Granted } })
      else
        (.Denied,
         { perms with write := { perms.write with global_state := .Denied } })
    else (state, perms)

/-- `Permissions::request_net`: the full original URL string (not the
parsed host:port) is inserted into the list chosen by the answer. -/
def Permissions.request_net (perms : Permissions) (url : Option String)
    (prompt : Bool) : Except ErrBox (PermissionState × Permissions) :=
  match url with
  | some u =>
    match perms.query_net_url (some u) with
    | .error e => .error e
    | .ok state =>
      if state = .Prompt then
        if prompt then
          .ok (.Granted,
            { perms with net := { perms.net with
                granted_list := hsInsert perms.net.granted_list u } })
        else
          .ok (.Denied,
            { perms with net := { perms.net with
                denied_list := hsInsert perms.net.denied_list u,
                global_state := .Denied } })
      else .ok (state, perms)
  | none =>
    match perms.query_net_url none with
    | .error e => .error e
    | .ok state =>
      if state = .Prompt then
        if prompt then
          .ok (.Granted,
            { perms with net := { perms.net with
                granted_list := [], global_state := .Granted } })
        else
          .ok (.Denied,
            { perms with net := { perms.net with global_state := .Denied } })
      else .ok (state, perms)

/-- `Permissions::request_env`. -/
def Permissions.request_env (perms : Permissions) (prompt : Bool) :
    PermissionState × Permissions :=
  if perms.env = .Prompt then
    if prompt then (.Granted, { perms with env := .Granted })
    else (.Denied, { perms with env := .Denied })
  else (perms.env, perms)

/-- `Permissions::request_run`. -/
def Permissions.request_run (perms : Permissions) (prompt : Bool) :
    PermissionState × Permissions :=
  if perms.run = .Prompt then
    if prompt then (.Granted, { perms with run := .Granted })
    else (.Denied, { perms with run := .Denied })
  else (perms.run, perms)

/-- `Permissions::request_plugin`. -/
def Permissions.request_plugin (perms : Permissions) (prompt : Bool) :
    PermissionState × Permissions :=
  if perms.plugin = .Prompt then
    if prompt then (.Granted, { perms with plugin := .Granted })
    else (.Denied, { perms with plugin := .Denied })
  else (perms.plugin, perms)

/-- `Permissions::request_hrtime`. -/
def Permissions.request_hrtime (perms : Permissions) (prompt : Bool) :
    PermissionState × Permissions :=
  if perms.hrtime = .Prompt then
    if prompt then (.Granted, { perms with hrtime := .Granted })
    else (.Denied, { perms with hrtime := .Denied })
  else (perms.hrtime, perms)

/-- `Permissions::revoke_read`: with a target, drop every allow-list entry
the resolved target is a segment prefix of; without one, clear the list
and downgrade `Granted` to `Prompt`.  Returns the new query verdict. -/
def Permissions.revoke_read (perms : Permissions) (cwd : Segs)
    (path : Option RawPath) : PermissionState × Permissions :=
  let perms' :=
    match path with
    | some p =>
      let resolved := resolve_from_cwd cwd p
      { perms with read := { perms.read with
          granted_list := perms.read.granted_list.filter
            (fun q => !(segStartsWith q resolved)) } }
    | none =>
      { perms with read := { perms.read with
          granted_list := [],
          global_state :=
            if perms.read.global_state = .Granted then .Prompt
            else perms.read.global_state } }
  (perms'.query_read cwd path, perms')

/-- `Permissions::revoke_write`: as `revoke_read` for the write class. -/
def Permissions.revoke_write (perms : Permissions) (cwd : Segs)
    (path : Option RawPath) : PermissionState × Permissions :=
  let perms' :=
    match path with
    | some p =>
      let resolved := resolve_from_cwd cwd p
      { perms with write := { perms.write with
          granted_list := perms.write.granted_list.filter
            (fun q => !(segStartsWith q resolved)) } }
    | none =>
      { perms with write := { perms.write with
          granted_list := [],
          global_state :=
            if perms.write.global_state = .Granted then .Prompt
            else perms.write.global_state } }
  (perms'.query_write cwd path, perms')

/-- `Permissions::revoke_net`: with a URL, remove exactly that string from
the allow list; without one, clear it and downgrade `Granted` to `Prompt`.
The mutation happens before the returned query verdict is computed. -/
def Permissions.revoke_net (perms : Permissions) (url : Option String) :
    Except ErrBox PermissionState × Permissions :=
  let perms' :=
    match url with
    | some u =>
      { perms with net := { perms.net with
          granted_list := perms.net.granted_list.filter (fun x => x ≠ u) } }
    | none =>
      { perms with net := { perms.net with
          granted_list := [],
          global_state :=
            if perms.net.global_state = .Granted then .Prompt
            else perms.net.global_state } }
  (perms'.query_net_url url, perms')

/-- `Permissions::revoke_env`. -/
def Permissions.revoke_env (perms : Permissions) :
    PermissionState × Permissions :=
  let s := if perms.env = .Granted then .Prompt else perms.env
  (s, { perms with env := s })

/-- `Permissions::revoke_run`. -/
def Permissions.revoke_run (perms : Permissions) :
    PermissionState × Permissions :=
  let s := if perms.run = .Granted then .Prompt else perms.run
  (s, { perms with run := s })

/-- `Permissions::revoke_plugin`. -/
def Permissions.revoke_plugin (perms : Permissions) :
    PermissionState × Permissions :=
  let s := if perms.plugin = .Granted then .Prompt else perms.plugin
  (s, { perms with plugin := s })

/-- `Permissions::revoke_hrtime`. -/
def Permissions.revoke_hrtime (perms : Permissions) :
    PermissionState × Permissions :=
  let s := if perms.hrtime = .Granted then .Prompt else perms.hrtime
  (s, { perms with hrtime := s })

/-- `Permissions::fork`: run the seven `check_fork`s in order; on success
materialize the child exactly from the arguments. -/
def Permissions.fork (perms : Permissions) (read write : UnaryPermission Segs)
    (net : UnaryPermission String) (env run plugin hrtime : PermissionState) :
    Except ErrBox Permissions := do
  perms.read.check_fork read
  perms.write.check_fork write
  perms.net.check_fork net
  perms.env.check_fork env
  perms.run.check_fork run
  perms.plugin.check_fork plugin
  perms.hrtime.check_fork hrtime
  return { read := read, write := write, net := net, env := env, run := run,
           plugin := plugin, hrtime := hrtime }

/-- `PermissionState::from(bool)`: `true` gives `Granted`, `false` gives
`Prompt`. -/
def PermissionState.fromBool (b : Bool) : PermissionState :=
  if b then .Granted else .Prompt

/-- The flag fields consumed by `Permissions::from_flags`. -/
structure Flags where
  allow_read : Bool := false
  allow_write : Bool := false
  allow_net : Bool := false
  allow_env : Bool := false
  allow_run : Bool := false
  allow_plugin : Bool := false
  allow_hrtime : Bool := false
  read_allowlist : List RawPath := []
  write_allowlist : List RawPath := []
  net_allowlist : List String := []

/-- `resolve_fs_allowlist`: cwd-resolve every allow-list entry. -/
def resolve_fs_allowlist (cwd : Segs) (l : List RawPath) : List Segs :=
  l.map (resolve_from_cwd cwd)

/-- `Permissions::from_flags`. -/
def Permissions.from_flags (cwd : Segs) (flags : Flags) : Permissions where
  read :=
    { global_state := .fromBool flags.allow_read
      granted_list := resolve_fs_allowlist cwd flags.read_allowlist }
  write :=
    { global_state := .fromBool flags.allow_write
      granted_list := resolve_fs_allowlist cwd flags.write_allowlist }
  net :=
    { global_state := .fromBool flags.allow_net
      granted_list := flags.net_allowlist }
  env := .fromBool flags.allow_env
  run := .fromBool flags.allow_run
  plugin := .fromBool flags.allow_plugin
  hrtime := .fromBool flags.allow_hrtime

/-- A JSON-like value, enough to model the serde inputs of
`test_deserialize_perms`. -/
inductive Json where
  | str : String → Json
  | arr : List Json → Json
  | obj : List (String × Json) → Json
deriving Repr

/-- Models the serde-derived `Deserialize` for `PermissionState`: a unit
enum variant deserializes from its name as a string. -/
def deserializeState : Json → Except String PermissionState
  | .str "Granted" => .ok .Granted
  | .str "Prompt" => .ok .Prompt
  | .str "Denied" => .ok .Denied
  | _ => .error "invalid PermissionState"

/-- Models `PathBuf` deserialization from a string for absolute paths: the
path's segments. -/
def deserializePath : Json → Except String Segs
  | .str s => .ok ((s.splitOn "/").filter (fun c => c ≠ ""))
  | _ => .error "invalid path"

/-- `String` deserialization. -/
def deserializeStr : Json → Except String String
  | .str s => .ok s
  | _ => .error "invalid string"

/-- `HashSet<T>` deserialization from a JSON array. -/
def deserializeList {T : Type} (elemDe : Json → Except String T) :
    Json → Except String (List T)
  | .arr xs => xs.mapM elemDe
  | _ => .error "invalid sequence"

/-- Field loop of the serde-derived `Deserialize` for
`UnaryPermission<T>`.  The struct carries no serde attributes, so a known
field seen twice errors, an unknown field is skipped, and after all fields
any absent required field errors (none of the field types fills in from a
missing value). -/
def deUnaryFields {T : Type} (elemDe : Json → Except String T) :
    List (String × Json) → Option PermissionState → Option (List T) →
    Option (List T) → Except String (UnaryPermission T)
  | [], gs, gl, dl =>
    match gs with
    | none => .error "missing field global_state"
    | some gs =>
      match gl with
      | none => .error "missing field granted_list"
      | some gl =>
        match dl with
        | none => .error "missing field denied_list"
        | some dl => .ok ⟨gs, gl, dl⟩
  | (k, v) :: rest, gs, gl, dl =>
    if k = "global_state" then
      match gs with
      | some _ => .error "duplicate field global_state"
      | none =>
        match deserializeState v with
        | .error e => .error e
        | .ok s => deUnaryFields elemDe rest (some s) gl dl
    else if k = "granted_list" then
      match gl with
      | some _ => .error "duplicate field granted_list"
      | none =>
        match deserializeList elemDe v with
        | .error e => .error e
        | .ok l => deUnaryFields elemDe rest gs (some l) dl
    else if k = "denied_list" then
      match dl with
      | some _ => .error "duplicate field denied_list"
      | none =>
        match deserializeList elemDe v with
        | .error e => .error e
        | .ok l => deUnaryFields elemDe rest gs gl (some l)
    else deUnaryFields elemDe rest gs gl dl

/-- Models the serde-derived `Deserialize` for `UnaryPermission<T>` from a
JSON object. -/
def deserializeUnary {T : Type} (elemDe : Json → Except String T) :
    Json → Except String (UnaryPermission T)
  | .obj fields => deUnaryFields elemDe fields none none none
  | _ => .error "invalid UnaryPermission"

/-- Partial state of the `Permissions` field loop: the seven optional
slots in declaration order. -/
structure PermSlots where
  read : Option (UnaryPermission Segs) := none
  write : Option (UnaryPermission Segs) := none
  net : Option (UnaryPermission String) := none
  env : Option PermissionState := none
  run : Option PermissionState := none
  plugin : Option PermissionState := none
  hrtime : Option PermissionState := none

/-- Finish of the `Permissions` field loop: every field is required. -/
def permsOfSlots (s : PermSlots) : Except String Permissions :=
  match s.read with
  | none => .error "missing field read"
  | some read =>
    match s.write with
    | none => .error "missing field write"
    | some write =>
      match s.net with
      | none => .error "missing field net"
      | some net =>
        match s.env with
        | none => .error "missing field env"
        | some env =>
          match s.run with
          | none => .error "missing field run"
          | some run =>
            match s.plugin with
            | none => .error "missing field plugin"
            | some plugin =>
              match s.hrtime with
              | none => .error "missing field hrtime"
              | some hrtime =>
                .ok ⟨read, write, net, env, run, plugin, hrtime⟩

/-- One step of the `Permissions` field loop: known fields fill their slot
(duplicates error), unknown fields are skipped. -/
def dePermsField (slots : PermSlots) (k : String) (v : Json) :
    Except String PermSlots :=
  if k = "read" then
    match slots.read with
    | some _ => .error "duplicate field read"
    | none =>
      (deserializeUnary deserializePath v).map (fun u => { slots with read := some u })
  else if k = "write" then
    match slots.write with
    | some _ => .error "duplicate field write"
    | none =>
      (deserializeUnary deserializePath v).map (fun u => { slots with write := some u })
  else if k = "net" then
    match slots.net with
    | some _ => .error "duplicate field net"
    | none =>
      (deserializeUnary deserializeStr v).map (fun u => { slots with net := some u })
  else if k = "env" then
    match slots.env with
    | some _ => .error "duplicate field env"
    | none => (deserializeState v).map (fun u => { slots with env := some u })
  else if k = "run" then
    match slots.run with
    | some _ => .error "duplicate field run"
    | none => (deserializeState v).map (fun u => { slots with run := some u })
  else if k = "plugin" then
    match slots.plugin with
    | some _ => .error "duplicate field plugin"
    | none => (deserializeState v).map (fun u => { slots with plugin := some u })
  else if k = "hrtime" then
    match slots.hrtime with
    | some _ => .error "duplicate field hrtime"
    | none => (deserializeState v).map (fun u => { slots with hrtime := some u })
  else .ok slots

/-- Field loop of the serde-derived `Deserialize` for `Permissions`. -/
def dePermsFields : List (String × Json) → PermSlots →
    Except String Permissions
  | [], slots => permsOfSlots slots
  | (k, v) :: rest, slots =>
    match dePermsField slots k v with
    | .error e => .error e
    | .ok slots => dePermsFields rest slots

/-- Models the serde-derived `Deserialize` for `Permissions` from a JSON
object: no serde attributes, so unknown fields are ignored and every
declared field is required. -/
def deserializePermissions : Json → Except String Permissions
  | .obj fields => dePermsFields fields {}
  | _ => .error "invalid Permissions"

/-- Equality of `Except` values is decidable when it is for both sides. -/
instance {ε α : Type} [DecidableEq ε] [DecidableEq α] :
    DecidableEq (Except ε α) := fun x y =>
  match x, y with
  | .ok a, .ok b =>
    if h : a = b then .isTrue (by rw [h])
    else .isFalse (fun hh => h (Except.ok.inj hh))
  | .ok _, .error _ => .isFalse (fun hh => Except.noConfusion hh)
  | .error _, .ok _ => .isFalse (fun hh => Except.noConfusion hh)
  | .error e, .error f =>
    if h : e = f then .isTrue (by rw [h])
    else .isFalse (fun hh => h (Except.error.inj hh))

/-- An `Except` value that is a success. -/
def isOkE {ε α : Type} : Except ε α → Bool
  | .ok _ => true
  | .error _ => false

/-- Spec-side (claim wording): some allow-list entry equals the target or
is a path-segment prefix of it. -/
def allowHitP (s : List Segs) (p : Segs) : Prop :=
  ∃ e ∈ s, e = p ∨ e <+: p

/-- Spec-side (claim wording): some deny-list entry equals the target or
is a descendant of it. -/
def blockHitP (s : List Segs) (p : Segs) : Prop :=
  ∃ e ∈ s, e = p ∨ p <+: e

instance (s : List Segs) (p : Segs) : Decidable (allowHitP s p) := by
  unfold allowHitP; infer_instance

instance (s : List Segs) (p : Segs) : Decidable (blockHitP s p) := by
  unfold blockHitP; infer_instance

/-- Spec-side (claim wording): the query contract for path resources,
written exactly as the spec's three clauses over an already-resolved
optional target. -/
def claimPathQuery (u : UnaryPermission Segs) :
    Option Segs → PermissionState
  | none =>
    if u.global_state = .Denied then .Denied
    else if u.global_state = .Granted then .Granted
    else .Prompt
  | some p =>
    if u.global_state = .Denied ∧ blockHitP u.denied_list p then .Denied
    else if u.global_state = .Granted ∨ allowHitP u.granted_list p then .Granted
    else .Prompt

/-- Spec-side (claim wording): the set contains the bare host, or a port
is present and the set contains the literal `"host:port"` string. -/
def netHitP (s : List String) (host : String) (port : Option Nat) : Prop :=
  host ∈ s ∨ ∃ p, port = some p ∧ (host ++ ":" ++ decimalRepr p) ∈ s

instance (s : List String) (host : String) (port : Option Nat) :
    Decidable (netHitP s host port) :=
  match port with
  | none => decidable_of_iff (host ∈ s) (by simp [netHitP])
  | some p =>
    decidable_of_iff (host ∈ s ∨ (host ++ ":" ++ decimalRepr p) ∈ s)
      (by simp [netHitP])

/-- Spec-side (C2 claim wording): clause 1 of the query contract applied
to the net class — `Denied` requires the global state to be `Denied` AND
a deny-list match. -/
def claimNetDeniedCond (perms : Permissions) (host : String)
    (port : Option Nat) : Prop :=
  perms.net.global_state = .Denied ∧ netHitP perms.net.denied_list host port

/-- Spec-side (C3 claim wording): scalar domination — fail when the parent
is `Denied` and the child is not, or the parent is `Prompt` and the child
is `Granted`. -/
def stateDominates (parent child : PermissionState) : Prop :=
  ¬(parent = .Denied ∧ child ≠ .Denied) ∧
    ¬(parent = .Prompt ∧ child = .Granted)

instance (a b : PermissionState) : Decidable (stateDominates a b) := by
  unfold stateDominates; infer_instance

/-- Spec-side (C3 claim wording): unary domination — scalar domination on
the global states plus `child.granted_list ⊆ parent.granted_list` and
`child.denied_list ⊇ parent.denied_list`. -/
def unaryDominates {T : Type} (parent child : UnaryPermission T) : Prop :=
  stateDominates parent.global_state child.global_state ∧
    (∀ x ∈ child.granted_list, x ∈ parent.granted_list) ∧
    (∀ x ∈ parent.denied_list, x ∈ child.denied_list)

instance {T : Type} [DecidableEq T] (a b : UnaryPermission T) :
    Decidable (unaryDominates a b) := by
  unfold unaryDominates; infer_instance

/-- Spec-side (C3 claim wording): pointwise domination of a child
`Permissions` value by its parent. -/
def permsDominates (parent child : Permissions) : Prop :=
  unaryDominates parent.read child.read ∧
    unaryDominates parent.write child.write ∧
    unaryDominates parent.net child.net ∧
    stateDominates parent.env child.env ∧
    stateDominates parent.run child.run ∧
    stateDominates parent.plugin child.plugin ∧
    stateDominates parent.hrtime child.hrtime

instance (a b : Permissions) : Decidable (permsDominates a b) := by
  unfold permsDominates; infer_instance

/-- A normalized segment list: no "." or ".." traversal segments remain.
Holds of any cwd obtained from `current_dir()` and of every output of
`resolve_from_cwd`. -/
def NoDots (s : Segs) : Prop :=
  ∀ c ∈ s, c ≠ "." ∧ c ≠ ".."

instance (s : Segs) : Decidable (NoDots s) := by
  unfold NoDots; infer_instance

/-- Spec-side (C7 claim wording): no state field of `b` has moved toward
`Granted` relative to `a` (`Granted = 0 < Prompt = 1 < Denied = 2`). -/
def statesNotLowered (a b : Permissions) : Prop :=
  a.read.global_state.code ≤ b.read.global_state.code ∧
    a.write.global_state.code ≤ b.write.global_state.code ∧
    a.net.global_state.code ≤ b.net.global_state.code ∧
    a.env.code ≤ b.env.code ∧
    a.run.code ≤ b.run.code ∧
    a.plugin.code ≤ b.plugin.code ∧
    a.hrtime.code ≤ b.hrtime.code

/-- The all-granted `UnaryPermission` JSON object of
`test_deserialize_perms`. -/
def jsonUnaryAllGranted : Json :=
  .obj [("global_state", .str "Granted"), ("granted_list", .arr []),
        ("denied_list", .arr [])]

/-- The all-granted `Permissions` JSON object of `test_deserialize_perms`. -/
def jsonPermsAllGranted : Json :=
  .obj [("read", jsonUnaryAllGranted), ("write", jsonUnaryAllGranted),
        ("net", jsonUnaryAllGranted), ("env", .str "Granted"),
        ("run", .str "Granted"), ("plugin", .str "Granted"),
        ("hrtime", .str "Granted")]

/-- The all-granted `Permissions` value. -/
def permsAllGranted : Permissions where
  read := { global_state := .Granted }
  write := { global_state := .Granted }
  net := { global_state := .Granted }
  env := .Granted
  run := .Granted
  plugin := .Granted
  hrtime := .Granted

/-! ### Helper lemmas -/

theorem segStartsWith_iff (p b : Segs) : segStartsWith p b = true ↔ b <+: p :=
  List.isPrefixOf_iff_prefix

theorem check_path_allowlist_iff (p : Segs) (s : List Segs) :
    check_path_allowlist p s = true ↔ allowHitP s p := by
  unfold check_path_allowlist allowHitP
  rw [List.any_eq_true]
  constructor
  · rintro ⟨e, he, hp⟩
    exact ⟨e, he, Or.inr ((segStartsWith_iff p e).1 hp)⟩
  · rintro ⟨e, he, hp⟩
    refine ⟨e, he, (segStartsWith_iff p e).2 ?_⟩
    rcases hp with rfl | hp
    · exact List.prefix_refl _
    · exact hp

theorem check_path_blocklist_iff (p : Segs) (s : List Segs) :
    check_path_blocklist p s = true ↔ blockHitP s p := by
  unfold check_path_blocklist blockHitP
  rw [List.any_eq_true]
  constructor
  · rintro ⟨e, he, hp⟩
    exact ⟨e, he, Or.inr ((segStartsWith_iff e p).1 hp)⟩
  · rintro ⟨e, he, hp⟩
    refine ⟨e, he, (segStartsWith_iff e p).2 ?_⟩
    rcases hp with rfl | hp
    · exact List.prefix_refl _
    · exact hp

theorem check_host_and_port_list_iff (host : String) (port : Option Nat)
    (s : List String) :
    check_host_and_port_list host port s = true ↔ netHitP s host port := by
  cases port <;>
    simp [check_host_and_port_list, netHitP]

theorem noDots_normalizeInto (l : List String) (acc : Segs)
    (h : NoDots acc) : NoDots (normalizeInto acc l) := by
  induction l generalizing acc with
  | nil => simpa [normalizeInto] using h
  | cons c rest ih =>
    by_cases h1 : c = "."
    · rw [normalizeInto, if_pos h1]
      exact ih acc h
    · by_cases h2 : c = ".."
      · rw [normalizeInto, if_neg h1, if_pos h2]
        exact ih _ (fun x hx => h x ((List.dropLast_sublist acc).subset hx))
      · rw [normalizeInto, if_neg h1, if_neg h2]
        refine ih _ (fun x hx => ?_)
        rcases List.mem_append.1 hx with hx | hx
        · exact h x hx
        · rcases List.mem_singleton.1 hx with rfl
          exact ⟨h1, h2⟩

theorem normalizeInto_of_noDots (l : List String) (acc : Segs)
    (h : NoDots l) : normalizeInto acc l = acc ++ l := by
  induction l generalizing acc with
  | nil => simp [normalizeInto]
  | cons c rest ih =>
    have hc := h c (List.mem_cons_self c rest)
    rw [normalizeInto, if_neg hc.1, if_neg hc.2]
    rw [ih _ (fun x hx => h x (List.mem_cons_of_mem c hx))]
    simp

theorem noDots_resolve (cwd : Segs) (h : NoDots cwd) (p : RawPath) :
    NoDots (resolve_from_cwd cwd p) := by
  unfold resolve_from_cwd
  split
  · exact noDots_normalizeInto _ _ (fun c hc => absurd hc (List.not_mem_nil c))
  · exact noDots_normalizeInto _ _ h

theorem resolve_resolved (cwd : Segs) (h : NoDots cwd) (p : RawPath) :
    resolve_from_cwd cwd ⟨true, resolve_from_cwd cwd p⟩ =
      resolve_from_cwd cwd p := by
  have hnd := noDots_resolve cwd h p
  show (if true = true then _ else _) = _
  rw [if_pos rfl]
  exact (normalizeInto_of_noDots _ [] hnd).trans (List.nil_append _)

theorem query_read_congr (perms : Permissions) (cwd : Segs)
    {a b : Option RawPath}
    (h : a.map (resolve_from_cwd cwd) = b.map (resolve_from_cwd cwd)) :
    perms.query_read cwd a = perms.query_read cwd b := by
  unfold Permissions.query_read
  rw [h]

theorem query_write_congr (perms : Permissions) (cwd : Segs)
    {a b : Option RawPath}
    (h : a.map (resolve_from_cwd cwd) = b.map (resolve_from_cwd cwd)) :
    perms.query_write cwd a = perms.query_write cwd b := by
  unfold Permissions.query_write
  rw [h]

theorem query_read_eq_claim (perms : Permissions) (cwd : Segs)
    (target : Option RawPath) :
    perms.query_read cwd target =
      claimPathQuery perms.read (target.map (resolve_from_cwd cwd)) := by
  cases target with
  | none =>
    unfold Permissions.query_read claimPathQuery
    cases h : perms.read.global_state <;> simp [h]
  | some p =>
    unfold Permissions.query_read claimPathQuery
    simp only [Option.map_some', Bool.and_eq_true, Bool.or_eq_true,
      decide_eq_true_eq, check_path_blocklist_iff, check_path_allowlist_iff]

theorem query_write_eq_claim (perms : Permissions) (cwd : Segs)
    (target : Option RawPath) :
    perms.query_write cwd target =
      claimPathQuery perms.write (target.map (resolve_from_cwd cwd)) := by
  cases target with
  | none =>
    unfold Permissions.query_write claimPathQuery
    cases h : perms.write.global_state <;> simp [h]
  | some p =>
    unfold Permissions.query_write claimPathQuery
    simp only [Option.map_some', Bool.and_eq_true, Bool.or_eq_true,
      decide_eq_true_eq, check_path_blocklist_iff, check_path_allowlist_iff]

theorem query_net_cases (perms : Permissions) (host : String)
    (port : Option Nat) :
    (perms.query_net host port = .Denied ↔
      perms.net.global_state = .Denied ∨
        netHitP perms.net.denied_list host port) ∧
    (perms.query_net host port = .Granted ↔
      ¬(perms.net.global_state = .Denied ∨
          netHitP perms.net.denied_list host port) ∧
        (perms.net.global_state = .Granted ∨
          netHitP perms.net.granted_list host port)) ∧
    (perms.query_net host port = .Prompt ↔
      ¬(perms.net.global_state = .Denied ∨
          netHitP perms.net.denied_list host port) ∧
        ¬(perms.net.global_state = .Granted ∨
          netHitP perms.net.granted_list host port)) := by
  unfold Permissions.query_net
  simp only [Bool.or_eq_true, decide_eq_true_eq, check_host_and_port_list_iff]
  split_ifs with h1 h2 <;> simp_all

/-! ### Claim theorems -/

/-- C1.  `query_read` and `query_write` resolve the target lexically
against the cwd and then follow the three spec clauses (`claimPathQuery`):
`Denied` when the global state is `Denied` and no target was given or some
deny-list entry equals the resolved target or is a descendant; else
`Granted` when the global state is `Granted` or some allow-list entry
equals the resolved target or is a path-segment prefix of it; else
`Prompt`.  With read allow-list `/a/specific/dir/name`, `/a/specific`,
`/b/c` and global `Prompt`, `check_read` succeeds on
`/a/specific/dir/name/inner`, `/a/specific/other/dir` and
`/b/c/sub/path/../path/.` and fails on `/b/e` and `/a/b`. -/
theorem c1_path_query_contract :
    (∀ (perms : Permissions) (cwd : Segs) (target : Option RawPath),
      perms.query_read cwd target =
        claimPathQuery perms.read (target.map (resolve_from_cwd cwd))) ∧
    (∀ (perms : Permissions) (cwd : Segs) (target : Option RawPath),
      perms.query_write cwd target =
        claimPathQuery perms.write (target.map (resolve_from_cwd cwd))) ∧
    ((Permissions.from_flags []
        { read_allowlist := [⟨true, ["a", "specific", "dir", "name"]⟩,
            ⟨true, ["a", "specific"]⟩, ⟨true, ["b", "c"]⟩] }).check_read []
        ⟨true, ["a", "specific", "dir", "name", "inner"]⟩ = .ok ()) ∧
    ((Permissions.from_flags []
        { read_allowlist := [⟨true, ["a", "specific", "dir", "name"]⟩,
            ⟨true, ["a", "specific"]⟩, ⟨true, ["b", "c"]⟩] }).check_read []
        ⟨true, ["a", "specific", "other", "dir"]⟩ = .ok ()) ∧
    ((Permissions.from_flags []
        { read_allowlist := [⟨true, ["a", "specific", "dir", "name"]⟩,
            ⟨true, ["a", "specific"]⟩, ⟨true, ["b", "c"]⟩] }).check_read []
        ⟨true, ["b", "c", "sub", "path", "..", "path", "."]⟩ = .ok ()) ∧
    (isOkE ((Permissions.from_flags []
        { read_allowlist := [⟨true, ["a", "specific", "dir", "name"]⟩,
            ⟨true, ["a", "specific"]⟩, ⟨true, ["b", "c"]⟩] }).check_read []
        ⟨true, ["b", "e"]⟩) = false) ∧
    (isOkE ((Permissions.from_flags []
        { read_allowlist := [⟨true, ["a", "specific", "dir", "name"]⟩,
            ⟨true, ["a", "specific"]⟩, ⟨true, ["b", "c"]⟩] }).check_read []
        ⟨true, ["a", "b"]⟩) = false) :=
  ⟨query_read_eq_claim, query_write_eq_claim, by decide, by decide, by decide,
   by decide, by decide⟩

/-- C2 counterexample.  With `net.global_state = Denied` and both lists
empty, `query_net "x" none` returns `Denied` although clause 1 as the
claim states it (global `Denied` AND a deny-list match,
`claimNetDeniedCond`) does not hold: the code tests the two conditions
with OR, not AND. -/
theorem c2_query_net_cex :
    Permissions.query_net
        { net := { global_state := .Denied, granted_list := [],
                   denied_list := [] } } "x" none = .Denied ∧
      ¬claimNetDeniedCond
        { net := { global_state := .Denied, granted_list := [],
                   denied_list := [] } } "x" none := by
  constructor
  · rfl
  · intro h
    rcases h.2 with h2 | ⟨p, _, h3⟩
    · exact absurd h2 (List.not_mem_nil _)
    · exact absurd h3 (List.not_mem_nil _)

/-- C2 amended.  `query_net` returns `Denied` exactly when
`net.global_state = Denied` OR the deny list contains the bare host or the
literal `"host:port"` string (either condition alone suffices); otherwise
`Granted` exactly when `net.global_state = Granted` or the allow list
matches; otherwise `Prompt`. -/
theorem c2_query_net_amended :
    ∀ (perms : Permissions) (host : String) (port : Option Nat),
      (perms.query_net host port = .Denied ↔
        perms.net.global_state = .Denied ∨
          netHitP perms.net.denied_list host port) ∧
      (perms.query_net host port = .Granted ↔
        ¬(perms.net.global_state = .Denied ∨
            netHitP perms.net.denied_list host port) ∧
          (perms.net.global_state = .Granted ∨
            netHitP perms.net.granted_list host port)) ∧
      (perms.query_net host port = .Prompt ↔
        ¬(perms.net.global_state = .Denied ∨
            netHitP perms.net.denied_list host port) ∧
          ¬(perms.net.global_state = .Granted ∨
            netHitP perms.net.granted_list host port)) :=
  fun perms host port => query_net_cases perms host port

theorem hsSuperset_iff {T : Type} [BEq T] [LawfulBEq T] (a b : List T) :
    hsSuperset a b = true ↔ ∀ x ∈ b, x ∈ a := by
  simp [hsSuperset]

theorem hsSubset_iff {T : Type} [BEq T] [LawfulBEq T] (a b : List T) :
    hsSubset a b = true ↔ ∀ x ∈ a, x ∈ b := by
  simp [hsSubset]

theorem state_check_fork_eq (a b : PermissionState) :
    a.check_fork b =
      (if stateDominates a b then .ok () else
        .error ⟨"PermissionDenied", "Arguments escalate parent permissions"⟩) := by
  cases a <;> cases b <;> decide

theorem unary_check_fork_eq {T : Type} [BEq T] [LawfulBEq T] [DecidableEq T]
    (u v : UnaryPermission T) :
    u.check_fork v =
      (if unaryDominates u v then .ok () else
        .error ⟨"PermissionDenied", "Arguments escalate parent permissions"⟩) := by
  unfold UnaryPermission.check_fork
  rw [state_check_fork_eq]
  by_cases h1 : stateDominates u.global_state v.global_state
  · rw [if_pos h1]
    by_cases h2 : ∀ x ∈ v.granted_list, x ∈ u.granted_list
    · by_cases h3 : ∀ x ∈ u.denied_list, x ∈ v.denied_list
      · rw [if_pos (show unaryDominates u v from ⟨h1, h2, h3⟩)]
        simp [(hsSuperset_iff u.granted_list v.granted_list).2 h2,
          (hsSubset_iff u.denied_list v.denied_list).2 h3]
      · rw [if_neg (show ¬unaryDominates u v from fun hd => h3 hd.2.2)]
        have hf : hsSubset u.denied_list v.denied_list = false := by
          rw [Bool.eq_false_iff]
          exact fun hh => h3 ((hsSubset_iff _ _).1 hh)
        simp [(hsSuperset_iff u.granted_list v.granted_list).2 h2, hf]
    · rw [if_neg (show ¬unaryDominates u v from fun hd => h2 hd.2.1)]
      have hf : hsSuperset u.granted_list v.granted_list = false := by
        rw [Bool.eq_false_iff]
        exact fun hh => h2 ((hsSuperset_iff _ _).1 hh)
      simp [hf]
  · rw [if_neg h1, if_neg (show ¬unaryDominates u v from fun hd => h1 hd.1)]

theorem fork_eq (perms : Permissions) (r w : UnaryPermission Segs)
    (n : UnaryPermission String) (e ru pl h : PermissionState) :
    perms.fork r w n e ru pl h =
      (if permsDominates perms ⟨r, w, n, e, ru, pl, h⟩ then
        .ok ⟨r, w, n, e, ru, pl, h⟩
      else
        .error ⟨"PermissionDenied", "Arguments escalate parent permissions"⟩) := by
  unfold Permissions.fork
  rw [unary_check_fork_eq, unary_check_fork_eq, unary_check_fork_eq,
    state_check_fork_eq, state_check_fork_eq, state_check_fork_eq,
    state_check_fork_eq]
  unfold permsDominates
  split_ifs <;> simp_all [Bind.bind, Except.bind, Pure.pure, Except.pure]



theorem stateDominates_refl (a : PermissionState) : stateDominates a a := by
  cases a <;> decide

theorem permsDominates_refl (v : Permissions) : permsDominates v v :=
  ⟨⟨stateDominates_refl _, fun _ hx => hx, fun _ hx => hx⟩,
   ⟨stateDominates_refl _, fun _ hx => hx, fun _ hx => hx⟩,
   ⟨stateDominates_refl _, fun _ hx => hx, fun _ hx => hx⟩,
   stateDominates_refl _, stateDominates_refl _, stateDominates_refl _,
   stateDominates_refl _⟩

theorem stateDominates_trans {a b c : PermissionState}
    (h1 : stateDominates a b) (h2 : stateDominates b c) :
    stateDominates a c := by
  revert h1 h2
  cases a <;> cases b <;> cases c <;> decide

theorem unaryDominates_trans {T : Type} {a b c : UnaryPermission T}
    (h1 : unaryDominates a b) (h2 : unaryDominates b c) :
    unaryDominates a c :=
  ⟨stateDominates_trans h1.1 h2.1,
   fun x hx => h1.2.1 x (h2.2.1 x hx),
   fun x hx => h2.2.2 x (h1.2.2 x hx)⟩

theorem permsDominates_trans {a b c : Permissions}
    (h1 : permsDominates a b) (h2 : permsDominates b c) :
    permsDominates a c :=
  ⟨unaryDominates_trans h1.1 h2.1,
   unaryDominates_trans h1.2.1 h2.2.1,
   unaryDominates_trans h1.2.2.1 h2.2.2.1,
   stateDominates_trans h1.2.2.2.1 h2.2.2.2.1,
   stateDominates_trans h1.2.2.2.2.1 h2.2.2.2.2.1,
   stateDominates_trans h1.2.2.2.2.2.1 h2.2.2.2.2.2.1,
   stateDominates_trans h1.2.2.2.2.2.2 h2.2.2.2.2.2.2⟩

/-- C3.  `fork` succeeds, yielding exactly the seven arguments, if and
only if the parent dominates the child pointwise (`permsDominates`); any
violation yields the fixed `PermissionDenied` error "Arguments escalate
parent permissions"; and the domination relation is reflexive (fork of a
value's own fields succeeds) and transitive. -/
theorem c3_fork_non_escalation :
    (∀ (parent : Permissions) (r w : UnaryPermission Segs)
        (n : UnaryPermission String) (e ru pl h : PermissionState),
      (parent.fork r w n e ru pl h = .ok ⟨r, w, n, e, ru, pl, h⟩ ↔
        permsDominates parent ⟨r, w, n, e, ru, pl, h⟩) ∧
      (¬permsDominates parent ⟨r, w, n, e, ru, pl, h⟩ →
        parent.fork r w n e ru pl h =
          .error ⟨"PermissionDenied", "Arguments escalate parent permissions"⟩)) ∧
    (∀ v : Permissions,
      v.fork v.read v.write v.net v.env v.run v.plugin v.hrtime = .ok v) ∧
    (∀ a b c : Permissions,
      permsDominates a b → permsDominates b c → permsDominates a c) := by
  refine ⟨fun parent r w n e ru pl h => ⟨⟨fun hok => ?_, fun hd => ?_⟩, fun hd => ?_⟩,
    fun v => ?_, fun a b c h1 h2 => permsDominates_trans h1 h2⟩
  · by_contra hd
    rw [fork_eq, if_neg hd] at hok
    exact Except.noConfusion hok
  · rw [fork_eq, if_pos hd]
  · rw [fork_eq, if_neg hd]
  · rw [fork_eq, if_pos (permsDominates_refl v)]

/-- C3 witness: a concrete escalating fork fails with the fixed error, and
concrete dominations compose. -/
theorem c3_fork_non_escalation_witness :
    Permissions.fork {} { global_state := .Granted } {} {} .Prompt .Prompt
        .Prompt .Prompt =
      .error ⟨"PermissionDenied", "Arguments escalate parent permissions"⟩ ∧
    permsDominates { env := .Granted } { env := .Prompt } := by
  refine ⟨(c3_fork_non_escalation.1 {} { global_state := .Granted } {} {}
    .Prompt .Prompt .Prompt .Prompt).2 (by decide), ?_⟩
  exact c3_fork_non_escalation.2.2 { env := .Granted } { env := .Prompt }
    { env := .Prompt } (by decide) (by decide)

/-- C8.  `check_hrtime` with a non-granted hrtime state: the failure
message names `--allow-run`, not `--allow-hrtime` as the spec's flag table
requires — the source passes the wrong flag constant (the spec itself
flags this as a bug in the code, §9(c)). -/
theorem c8_check_hrtime_flag_bug :
    Permissions.check_hrtime {} =
      .error ⟨"PermissionDenied",
        "access to high precision time, run again with the --allow-run flag"⟩ := by
  rfl

theorem deUnaryFields_append_unknown {T : Type}
    (elemDe : Json → Except String T) (k : String) (v : Json)
    (hk1 : k ≠ "global_state") (hk2 : k ≠ "granted_list")
    (hk3 : k ≠ "denied_list") (fields : List (String × Json)) :
    ∀ gs gl dl,
      deUnaryFields elemDe (fields ++ [(k, v)]) gs gl dl =
        deUnaryFields elemDe fields gs gl dl := by
  induction fields with
  | nil =>
    intro gs gl dl
    simp [deUnaryFields, hk1, hk2, hk3]
  | cons kv rest ih =>
    intro gs gl dl
    obtain ⟨kh, vh⟩ := kv
    by_cases h1 : kh = "global_state"
    · cases gs with
      | some s => simp [deUnaryFields, h1]
      | none =>
        cases hds : deserializeState vh with
        | error e => simp [deUnaryFields, h1, hds]
        | ok s => simp [deUnaryFields, h1, hds, ih]
    · by_cases h2 : kh = "granted_list"
      · cases gl with
        | some l => simp [deUnaryFields, h1, h2]
        | none =>
          cases hds : deserializeList elemDe vh with
          | error e => simp [deUnaryFields, h1, h2, hds]
          | ok l => simp [deUnaryFields, h1, h2, hds, ih]
      · by_cases h3 : kh = "denied_list"
        · cases dl with
          | some l => simp [deUnaryFields, h1, h2, h3]
          | none =>
            cases hds : deserializeList elemDe vh with
            | error e => simp [deUnaryFields, h1, h2, h3, hds]
            | ok l => simp [deUnaryFields, h1, h2, h3, hds, ih]
        · simp [deUnaryFields, h1, h2, h3, ih]

theorem deUnaryFields_missing_granted {T : Type}
    (elemDe : Json → Except String T) (fields : List (String × Json))
    (hf : ∀ kv ∈ fields, kv.1 ≠ "granted_list") :
    ∀ gs dl, ∃ e, deUnaryFields elemDe fields gs none dl = .error e := by
  induction fields with
  | nil =>
    intro gs dl
    cases gs with
    | none => exact ⟨_, rfl⟩
    | some s => exact ⟨_, rfl⟩
  | cons kv rest ih =>
    intro gs dl
    obtain ⟨kh, vh⟩ := kv
    have hkh : kh ≠ "granted_list" := hf (kh, vh) (List.mem_cons_self _ _)
    have hrest : ∀ kv ∈ rest, kv.1 ≠ "granted_list" :=
      fun kv hkv => hf kv (List.mem_cons_of_mem _ hkv)
    by_cases h1 : kh = "global_state"
    · cases gs with
      | some s => exact ⟨"duplicate field global_state", by simp [deUnaryFields, h1]⟩
      | none =>
        cases hds : deserializeState vh with
        | error e => exact ⟨e, by simp [deUnaryFields, h1, hds]⟩
        | ok s =>
          obtain ⟨e, he⟩ := ih hrest (some s) dl
          exact ⟨e, by simp [deUnaryFields, h1, hds, he]⟩
    · by_cases h3 : kh = "denied_list"
      · cases dl with
        | some l => exact ⟨"duplicate field denied_list", by simp [deUnaryFields, h1, h3, hkh]⟩
        | none =>
          cases hds : deserializeList elemDe vh with
          | error e => exact ⟨e, by simp [deUnaryFields, h1, h3, hkh, hds]⟩
          | ok l =>
            obtain ⟨e, he⟩ := ih hrest gs (some l)
            exact ⟨e, by simp [deUnaryFields, h1, h3, hkh, hds, he]⟩
      · obtain ⟨e, he⟩ := ih hrest gs dl
        exact ⟨e, by simp [deUnaryFields, h1, h3, hkh, he]⟩

theorem deUnaryFields_missing_global {T : Type}
    (elemDe : Json → Except String T) (fields : List (String × Json))
    (hf : ∀ kv ∈ fields, kv.1 ≠ "global_state") :
    ∀ gl dl, ∃ e, deUnaryFields elemDe fields none gl dl = .error e := by
  induction fields with
  | nil =>
    intro gl dl
    exact ⟨_, rfl⟩
  | cons kv rest ih =>
    intro gl dl
    obtain ⟨kh, vh⟩ := kv
    have hkh : kh ≠ "global_state" := hf (kh, vh) (List.mem_cons_self _ _)
    have hrest : ∀ kv ∈ rest, kv.1 ≠ "global_state" :=
      fun kv hkv => hf kv (List.mem_cons_of_mem _ hkv)
    by_cases h2 : kh = "granted_list"
    · cases gl with
      | some l => exact ⟨"duplicate field granted_list", by simp [deUnaryFields, hkh, h2]⟩
      | none =>
        cases hds : deserializeList elemDe vh with
        | error e => exact ⟨e, by simp [deUnaryFields, hkh, h2, hds]⟩
        | ok l =>
          obtain ⟨e, he⟩ := ih hrest (some l) dl
          exact ⟨e, by simp [deUnaryFields, hkh, h2, hds, he]⟩
    · by_cases h3 : kh = "denied_list"
      · cases dl with
        | some l => exact ⟨"duplicate field denied_list", by simp [deUnaryFields, hkh, h2, h3]⟩
        | none =>
          cases hds : deserializeList elemDe vh with
          | error e => exact ⟨e, by simp [deUnaryFields, hkh, h2, h3, hds]⟩
          | ok l =>
            obtain ⟨e, he⟩ := ih hrest gl (some l)
            exact ⟨e, by simp [deUnaryFields, hkh, h2, h3, hds, he]⟩
      · obtain ⟨e, he⟩ := ih hrest gl dl
        exact ⟨e, by simp [deUnaryFields, hkh, h2, h3, he]⟩

theorem deUnaryFields_missing_denied {T : Type}
    (elemDe : Json → Except String T) (fields : List (String × Json))
    (hf : ∀ kv ∈ fields, kv.1 ≠ "denied_list") :
    ∀ gs gl, ∃ e, deUnaryFields elemDe fields gs gl none = .error e := by
  induction fields with
  | nil =>
    intro gs gl
    cases gs with
    | none => exact ⟨_, rfl⟩
    | some s =>
      cases gl with
      | none => exact ⟨_, rfl⟩
      | some l => exact ⟨_, rfl⟩
  | cons kv rest ih =>
    intro gs gl
    obtain ⟨kh, vh⟩ := kv
    have hkh : kh ≠ "denied_list" := hf (kh, vh) (List.mem_cons_self _ _)
    have hrest : ∀ kv ∈ rest, kv.1 ≠ "denied_list" :=
      fun kv hkv => hf kv (List.mem_cons_of_mem _ hkv)
    by_cases h1 : kh = "global_state"
    · cases gs with
      | some s =>
        exact ⟨"duplicate field global_state", by simp [deUnaryFields, h1]⟩
      | none =>
        cases hds : deserializeState vh with
        | error e => exact ⟨e, by simp [deUnaryFields, h1, hds]⟩
        | ok s =>
          obtain ⟨e, he⟩ := ih hrest (some s) gl
          exact ⟨e, by simp [deUnaryFields, h1, hds, he]⟩
    · by_cases h2 : kh = "granted_list"
      · cases gl with
        | some l =>
          exact ⟨"duplicate field granted_list", by simp [deUnaryFields, h1, h2]⟩
        | none =>
          cases hds : deserializeList elemDe vh with
          | error e => exact ⟨e, by simp [deUnaryFields, h1, h2, hds]⟩
          | ok l =>
            obtain ⟨e, he⟩ := ih hrest gs (some l)
            exact ⟨e, by simp [deUnaryFields, h1, h2, hds, he]⟩
      · obtain ⟨e, he⟩ := ih hrest gs gl
        exact ⟨e, by simp [deUnaryFields, h1, h2, hkh, he]⟩

/-- C9 counterexample.  The derived deserializer accepts an object with an
unknown field `extra` (the claim says unknown fields are rejected), and
fails on objects missing exactly `granted_list`, exactly `denied_list`, or
exactly `global_state` (the claim says those default to empty / empty /
`Prompt`). -/
theorem c9_deserialize_cex :
    deserializeUnary deserializeStr
        (.obj [("global_state", .str "Granted"), ("granted_list", .arr []),
               ("denied_list", .arr []), ("extra", .str "x")]) =
      .ok { global_state := .Granted, granted_list := [], denied_list := [] } ∧
    deserializeUnary deserializeStr
        (.obj [("global_state", .str "Granted"), ("denied_list", .arr [])]) =
      .error "missing field granted_list" ∧
    deserializeUnary deserializeStr
        (.obj [("global_state", .str "Granted"), ("granted_list", .arr [])]) =
      .error "missing field denied_list" ∧
    deserializeUnary deserializeStr
        (.obj [("granted_list", .arr []), ("denied_list", .arr [])]) =
      .error "missing field global_state" :=
  ⟨rfl, rfl, rfl, rfl⟩

/-- C9 amended.  Deserialization ignores unknown fields rather than
rejecting them (appending one never changes the result, and a complete
`Permissions` object deserializes also with an unknown field added); an
input missing `granted_list`, missing `denied_list`, or missing
`global_state` fails with an error rather than defaulting. -/
theorem c9_deserialize_amended :
    (∀ (T : Type) (elemDe : Json → Except String T) (k : String) (v : Json)
        (fields : List (String × Json)) (gs : Option PermissionState)
        (gl dl : Option (List T)),
      k ≠ "global_state" → k ≠ "granted_list" → k ≠ "denied_list" →
        deUnaryFields elemDe (fields ++ [(k, v)]) gs gl dl =
          deUnaryFields elemDe fields gs gl dl) ∧
    (∀ (T : Type) (elemDe : Json → Except String T)
        (fields : List (String × Json)),
      (∀ kv ∈ fields, kv.1 ≠ "granted_list") →
        ∃ e, deserializeUnary elemDe (.obj fields) = .error e) ∧
    (∀ (T : Type) (elemDe : Json → Except String T)
        (fields : List (String × Json)),
      (∀ kv ∈ fields, kv.1 ≠ "denied_list") →
        ∃ e, deserializeUnary elemDe (.obj fields) = .error e) ∧
    (∀ (T : Type) (elemDe : Json → Except String T)
        (fields : List (String × Json)),
      (∀ kv ∈ fields, kv.1 ≠ "global_state") →
        ∃ e, deserializeUnary elemDe (.obj fields) = .error e) ∧
    deserializePermissions jsonPermsAllGranted = .ok permsAllGranted ∧
    deserializePermissions
        (.obj [("read", jsonUnaryAllGranted), ("write", jsonUnaryAllGranted),
               ("net", jsonUnaryAllGranted), ("env", .str "Granted"),
               ("run", .str "Granted"), ("plugin", .str "Granted"),
               ("hrtime", .str "Granted"), ("extra", .str "x")]) =
      .ok permsAllGranted := by
  refine ⟨fun T elemDe k v fields gs gl dl h1 h2 h3 =>
      deUnaryFields_append_unknown elemDe k v h1 h2 h3 fields gs gl dl,
    fun T elemDe fields hf =>
      deUnaryFields_missing_granted elemDe fields hf none none,
    fun T elemDe fields hf =>
      deUnaryFields_missing_denied elemDe fields hf none none,
    fun T elemDe fields hf =>
      deUnaryFields_missing_global elemDe fields hf none none,
    rfl, rfl⟩

/-- C9 witness: the amended statement applied at concrete inputs, each
isolating exactly one missing field. -/
theorem c9_deserialize_amended_witness :
    deUnaryFields deserializeStr
        ([("global_state", Json.str "Granted")] ++ [("extra", Json.str "x")])
        none none none =
      deUnaryFields deserializeStr [("global_state", Json.str "Granted")]
        none none none ∧
    (∃ e, deserializeUnary deserializeStr
        (.obj [("global_state", Json.str "Granted"),
               ("denied_list", Json.arr [])]) = .error e) ∧
    (∃ e, deserializeUnary deserializeStr
        (.obj [("global_state", Json.str "Granted"),
               ("granted_list", Json.arr [])]) = .error e) ∧
    (∃ e, deserializeUnary deserializeStr
        (.obj [("granted_list", Json.arr []),
               ("denied_list", Json.arr [])]) = .error e) := by
  refine ⟨c9_deserialize_amended.1 String deserializeStr "extra" (.str "x")
      [("global_state", Json.str "Granted")] none none none
      (by decide) (by decide) (by decide), ?_, ?_, ?_⟩
  · exact c9_deserialize_amended.2.1 String deserializeStr
      [("global_state", Json.str "Granted"), ("denied_list", Json.arr [])]
      (by simp)
  · exact c9_deserialize_amended.2.2.1 String deserializeStr
      [("global_state", Json.str "Granted"), ("granted_list", Json.arr [])]
      (by simp)
  · exact c9_deserialize_amended.2.2.2.1 String deserializeStr
      [("granted_list", Json.arr []), ("denied_list", Json.arr [])]
      (by simp)

theorem contains_iff_mem {T : Type} [BEq T] [LawfulBEq T] (l : List T) (x : T) :
    l.contains x = true ↔ x ∈ l := by
  simp

theorem segStartsWith_self (p : Segs) : segStartsWith p p = true :=
  (segStartsWith_iff p p).2 (List.prefix_refl p)

theorem not_mem_filter_self (l : List Segs) (r : Segs) :
    r ∉ l.filter (fun q => !(segStartsWith q r)) := by
  intro hm
  have h2 := (List.mem_filter.1 hm).2
  rw [segStartsWith_self] at h2
  exact Bool.noConfusion h2

theorem hsInsert_filter_eq (l : List Segs) (r : Segs) :
    hsInsert (l.filter (fun q => !(segStartsWith q r))) r =
      r :: l.filter (fun q => !(segStartsWith q r)) := by
  unfold hsInsert
  split
  · rename_i hc
    exact absurd ((contains_iff_mem _ _).1 hc) (not_mem_filter_self l r)
  · rfl

theorem request_read_grant_eq (perms : Permissions) (cwd : Segs) (P : RawPath)
    (h : NoDots cwd) (hq : perms.query_read cwd (some P) = .Prompt) :
    perms.request_read cwd (some P) true =
      (.Granted, { perms with read := { perms.read with
        granted_list := resolve_from_cwd cwd P ::
          perms.read.granted_list.filter
            (fun q => !(segStartsWith q (resolve_from_cwd cwd P))) } }) := by
  have hstate : perms.query_read cwd (some ⟨true, resolve_from_cwd cwd P⟩) =
      .Prompt := by
    rw [query_read_congr perms cwd
      (show (some (⟨true, resolve_from_cwd cwd P⟩ : RawPath)).map
          (resolve_from_cwd cwd) = (some P).map (resolve_from_cwd cwd) from by
        simp [resolve_resolved cwd h P])]
    exact hq
  simp only [Permissions.request_read, Permissions.resolved_and_display_path]
  rw [hstate]
  simp [hsInsert_filter_eq]


/-- C4.  If `request_read(P)` is called while `query_read(P) = Prompt` and
the prompt grants, it returns `Granted`; afterwards no element of
`read.granted_list` is a strict descendant of the resolved `P`,
`check_read(Q)` succeeds for every `Q` equal to or under `P`, and a
subsequent `request_read` of any such `Q` returns `Granted` with the
`Permissions` value unchanged even when the prompt stub would deny. -/
theorem c4_request_read_grant_subsumption :
    ∀ (perms : Permissions) (cwd : Segs) (P : RawPath),
      NoDots cwd →
      perms.query_read cwd (some P) = .Prompt →
      (perms.request_read cwd (some P) true).1 = .Granted ∧
      (∀ q ∈ (perms.request_read cwd (some P) true).2.read.granted_list,
        ¬(resolve_from_cwd cwd P <+: q ∧ q ≠ resolve_from_cwd cwd P)) ∧
      (∀ Q : RawPath,
        resolve_from_cwd cwd P <+: resolve_from_cwd cwd Q →
          (perms.request_read cwd (some P) true).2.check_read cwd Q = .ok ()) ∧
      (∀ Q : RawPath,
        resolve_from_cwd cwd P <+: resolve_from_cwd cwd Q →
          (perms.request_read cwd (some P) true).2.request_read cwd (some Q)
              false =
            (.Granted, (perms.request_read cwd (some P) true).2)) := by
  intro perms cwd P hnd hq
  have hden0 : ¬(perms.read.global_state = .Denied ∧
      blockHitP perms.read.denied_list (resolve_from_cwd cwd P)) := by
    intro hc
    rw [query_read_eq_claim] at hq
    simp only [Option.map_some', claimPathQuery] at hq
    rw [if_pos hc] at hq
    exact PermissionState.noConfusion hq
  rw [request_read_grant_eq perms cwd P hnd hq]
  set gl : List Segs := resolve_from_cwd cwd P ::
    perms.read.granted_list.filter
      (fun q => !(segStartsWith q (resolve_from_cwd cwd P))) with hgl
  set perms' : Permissions :=
    { perms with read := { perms.read with granted_list := gl } } with hp
  have hgs : perms'.read.global_state = perms.read.global_state := rfl
  have hdl : perms'.read.denied_list = perms.read.denied_list := rfl
  have hglq : perms'.read.granted_list = gl := rfl
  have key : ∀ Q : RawPath,
      resolve_from_cwd cwd P <+: resolve_from_cwd cwd Q →
      perms'.query_read cwd (some ⟨true, resolve_from_cwd cwd Q⟩) =
        .Granted := by
    intro Q hpre
    have hA : ¬(perms'.read.global_state = .Denied ∧
        blockHitP perms'.read.denied_list (resolve_from_cwd cwd Q)) := by
      rw [hgs, hdl]
      rintro ⟨hgd, e, he, hcase⟩
      refine hden0 ⟨hgd, e, he, Or.inr ?_⟩
      rcases hcase with rfl | hcase
      · exact hpre
      · exact hpre.trans hcase
    have hB : perms'.read.global_state = .Granted ∨
        allowHitP perms'.read.granted_list (resolve_from_cwd cwd Q) := by
      rw [hglq, hgl]
      exact Or.inr ⟨resolve_from_cwd cwd P, List.mem_cons_self _ _,
        Or.inr hpre⟩
    rw [query_read_eq_claim]
    rw [show (some (⟨true, resolve_from_cwd cwd Q⟩ : RawPath)).map
        (resolve_from_cwd cwd) = some (resolve_from_cwd cwd Q) from by
      simp [resolve_resolved cwd hnd Q]]
    simp only [claimPathQuery]
    rw [if_neg hA, if_pos hB]
  refine ⟨rfl, ?_, ?_, ?_⟩
  · intro q hmem
    rw [hglq, hgl] at hmem
    rcases List.mem_cons.1 hmem with rfl | hmem
    · rintro ⟨_, hne⟩
      exact hne rfl
    · have hpred := (List.mem_filter.1 hmem).2
      rintro ⟨hpre, _⟩
      rw [(segStartsWith_iff q _).2 hpre] at hpred
      exact Bool.noConfusion hpred
  · intro Q hpre
    simp only [Permissions.check_read, Permissions.resolved_and_display_path]
    rw [key Q hpre]
    rfl
  · intro Q hpre
    simp only [Permissions.request_read, Permissions.resolved_and_display_path]
    rw [key Q hpre]
    simp

/-- C4 witness: from the default state, granting `/foo` returns `Granted`
and a denying request for `/foo/bar` still returns `Granted` without
changing the state. -/
theorem c4_request_read_grant_subsumption_witness :
    (Permissions.request_read {} [] (some ⟨true, ["foo"]⟩) true).1 =
      .Granted ∧
    (Permissions.request_read {} [] (some ⟨true, ["foo"]⟩) true).2.request_read
        [] (some ⟨true, ["foo", "bar"]⟩) false =
      (.Granted, (Permissions.request_read {} [] (some ⟨true, ["foo"]⟩)
        true).2) := by
  have h := c4_request_read_grant_subsumption {} [] ⟨true, ["foo"]⟩
    (by decide) (by decide)
  exact ⟨h.1, h.2.2.2 ⟨true, ["foo", "bar"]⟩ (by decide)⟩

theorem not_mem_filter_self2 (l : List Segs) (r : Segs) :
    r ∉ l.filter (fun q => !(segStartsWith r q)) := by
  intro hm
  have h2 := (List.mem_filter.1 hm).2
  rw [segStartsWith_self] at h2
  exact Bool.noConfusion h2

theorem hsInsert_filter_eq2 (l : List Segs) (r : Segs) :
    hsInsert (l.filter (fun q => !(segStartsWith r q))) r =
      r :: l.filter (fun q => !(segStartsWith r q)) := by
  unfold hsInsert
  split
  · rename_i hc
    exact absurd ((contains_iff_mem _ _).1 hc) (not_mem_filter_self2 l r)
  · rfl

theorem request_write_deny_eq (perms : Permissions) (cwd : Segs) (P : RawPath)
    (h : NoDots cwd) (hq : perms.query_write cwd (some P) = .Prompt) :
    perms.request_write cwd (some P) false =
      (.Denied, { perms with write := { perms.write with
        denied_list := resolve_from_cwd cwd P ::
          perms.write.denied_list.filter
            (fun q => !(segStartsWith (resolve_from_cwd cwd P) q)),
        global_state := .Denied } }) := by
  have hstate : perms.query_write cwd (some ⟨true, resolve_from_cwd cwd P⟩) =
      .Prompt := by
    rw [query_write_congr perms cwd
      (show (some (⟨true, resolve_from_cwd cwd P⟩ : RawPath)).map
          (resolve_from_cwd cwd) = (some P).map (resolve_from_cwd cwd) from by
        simp [resolve_resolved cwd h P])]
    exact hq
  simp only [Permissions.request_write, Permissions.resolved_and_display_path]
  rw [hstate]
  simp [hsInsert_filter_eq2]

theorem request_read_deny_eq (perms : Permissions) (cwd : Segs) (P : RawPath)
    (h : NoDots cwd) (hq : perms.query_read cwd (some P) = .Prompt) :
    perms.request_read cwd (some P) false =
      (.Denied, { perms with read := { perms.read with
        denied_list := resolve_from_cwd cwd P ::
          perms.read.denied_list.filter
            (fun q => !(segStartsWith (resolve_from_cwd cwd P) q)),
        global_state := .Denied } }) := by
  have hstate : perms.query_read cwd (some ⟨true, resolve_from_cwd cwd P⟩) =
      .Prompt := by
    rw [query_read_congr perms cwd
      (show (some (⟨true, resolve_from_cwd cwd P⟩ : RawPath)).map
          (resolve_from_cwd cwd) = (some P).map (resolve_from_cwd cwd) from by
        simp [resolve_resolved cwd h P])]
    exact hq
  simp only [Permissions.request_read, Permissions.resolved_and_display_path]
  rw [hstate]
  simp [hsInsert_filter_eq2]

/-- C5.  If `request_write(P)` — and likewise `request_read(P)` — is
called while the corresponding query is `Prompt` and the prompt denies,
it returns `Denied`; afterwards the resolved `P` is in that class's
`denied_list`, no deny-list element is a strict ancestor of it, the
class's `global_state` is `Denied` (so the target-less query is `Denied`
and the check of `P` fails), the six other resource-class fields are
unchanged, and a later `request_net(None)` with a granting stub mutates
only the net field. -/
theorem c5_request_deny_escalates :
    (∀ (perms : Permissions) (cwd : Segs) (P : RawPath),
      NoDots cwd →
      perms.query_write cwd (some P) = .Prompt →
      (perms.request_write cwd (some P) false).1 = .Denied ∧
      resolve_from_cwd cwd P ∈
        (perms.request_write cwd (some P) false).2.write.denied_list ∧
      (∀ d ∈ (perms.request_write cwd (some P) false).2.write.denied_list,
        ¬(d <+: resolve_from_cwd cwd P ∧ d ≠ resolve_from_cwd cwd P)) ∧
      (perms.request_write cwd (some P) false).2.write.global_state =
        .Denied ∧
      (perms.request_write cwd (some P) false).2.query_write cwd none =
        .Denied ∧
      isOkE ((perms.request_write cwd (some P) false).2.check_write cwd P) =
        false ∧
      (perms.request_write cwd (some P) false).2.read = perms.read ∧
      (perms.request_write cwd (some P) false).2.net = perms.net ∧
      (perms.request_write cwd (some P) false).2.env = perms.env ∧
      (perms.request_write cwd (some P) false).2.run = perms.run ∧
      (perms.request_write cwd (some P) false).2.plugin = perms.plugin ∧
      (perms.request_write cwd (some P) false).2.hrtime = perms.hrtime ∧
      isOkE ((perms.request_write cwd (some P) false).2.request_net none true)
        = true ∧
      (∀ st p2,
        (perms.request_write cwd (some P) false).2.request_net none true =
          .ok (st, p2) →
        p2.read = (perms.request_write cwd (some P) false).2.read ∧
        p2.write = (perms.request_write cwd (some P) false).2.write ∧
        p2.env = (perms.request_write cwd (some P) false).2.env ∧
        p2.run = (perms.request_write cwd (some P) false).2.run ∧
        p2.plugin = (perms.request_write cwd (some P) false).2.plugin ∧
        p2.hrtime = (perms.request_write cwd (some P) false).2.hrtime)) ∧
    (∀ (perms : Permissions) (cwd : Segs) (P : RawPath),
      NoDots cwd →
      perms.query_read cwd (some P) = .Prompt →
      (perms.request_read cwd (some P) false).1 = .Denied ∧
      resolve_from_cwd cwd P ∈
        (perms.request_read cwd (some P) false).2.read.denied_list ∧
      (∀ d ∈ (perms.request_read cwd (some P) false).2.read.denied_list,
        ¬(d <+: resolve_from_cwd cwd P ∧ d ≠ resolve_from_cwd cwd P)) ∧
      (perms.request_read cwd (some P) false).2.read.global_state =
        .Denied ∧
      (perms.request_read cwd (some P) false).2.query_read cwd none =
        .Denied ∧
      isOkE ((perms.request_read cwd (some P) false).2.check_read cwd P) =
        false ∧
      (perms.request_read cwd (some P) false).2.write = perms.write ∧
      (perms.request_read cwd (some P) false).2.net = perms.net ∧
      (perms.request_read cwd (some P) false).2.env = perms.env ∧
      (perms.request_read cwd (some P) false).2.run = perms.run ∧
      (perms.request_read cwd (some P) false).2.plugin = perms.plugin ∧
      (perms.request_read cwd (some P) false).2.hrtime = perms.hrtime ∧
      isOkE ((perms.request_read cwd (some P) false).2.request_net none true)
        = true ∧
      (∀ st p2,
        (perms.request_read cwd (some P) false).2.request_net none true =
          .ok (st, p2) →
        p2.read = (perms.request_read cwd (some P) false).2.read ∧
        p2.write = (perms.request_read cwd (some P) false).2.write ∧
        p2.env = (perms.request_read cwd (some P) false).2.env ∧
        p2.run = (perms.request_read cwd (some P) false).2.run ∧
        p2.plugin = (perms.request_read cwd (some P) false).2.plugin ∧
        p2.hrtime = (perms.request_read cwd (some P) false).2.hrtime)) := by
  constructor
  · intro perms cwd P hnd hq
    rw [request_write_deny_eq perms cwd P hnd hq]
    set r : Segs := resolve_from_cwd cwd P with hr
    set dl : List Segs :=
      r :: perms.write.denied_list.filter (fun q => !(segStartsWith r q))
      with hdl
    set perms' : Permissions :=
      { perms with write := { perms.write with
          denied_list := dl, global_state := .Denied } } with hp
    have hqd : perms'.query_write cwd (some ⟨true, r⟩) = .Denied := by
      rw [query_write_eq_claim]
      rw [show (some (⟨true, r⟩ : RawPath)).map (resolve_from_cwd cwd) =
          some r from by simp [hr, resolve_resolved cwd hnd P]]
      have hb : blockHitP dl r := ⟨r, List.mem_cons_self _ _, Or.inl rfl⟩
      simp [claimPathQuery, hb]
    have hreq : perms'.request_net none true =
        (if perms'.net.global_state = .Prompt then
          .ok (.Granted, { perms' with net := { perms'.net with
            granted_list := [], global_state := .Granted } })
        else .ok (perms'.net.global_state, perms')) := by
      simp only [Permissions.request_net, Permissions.query_net_url]
      split_ifs <;> rfl
    refine ⟨rfl, List.mem_cons_self _ _, ?_, rfl, rfl, ?_, rfl, rfl, rfl, rfl,
      rfl, rfl, ?_, ?_⟩
    · intro d hmem
      rcases List.mem_cons.1 hmem with rfl | hmem
      · rintro ⟨_, hne⟩
        exact hne rfl
      · have hpred := (List.mem_filter.1 hmem).2
        rintro ⟨hpre, _⟩
        rw [(segStartsWith_iff r d).2 hpre] at hpred
        exact Bool.noConfusion hpred
    · simp only [Permissions.check_write,
        Permissions.resolved_and_display_path]
      rw [hqd]
      rfl
    · rw [hreq]
      split_ifs <;> rfl
    · intro st p2 heq
      rw [hreq] at heq
      split_ifs at heq
      · have hpair := Except.ok.inj heq
        have hp2 := congrArg Prod.snd hpair
        simp only at hp2
        rw [← hp2]
        exact ⟨rfl, rfl, rfl, rfl, rfl, rfl⟩
      · have hpair := Except.ok.inj heq
        have hp2 := congrArg Prod.snd hpair
        simp only at hp2
        rw [← hp2]
        exact ⟨rfl, rfl, rfl, rfl, rfl, rfl⟩
  · intro perms cwd P hnd hq
    rw [request_read_deny_eq perms cwd P hnd hq]
    set r : Segs := resolve_from_cwd cwd P with hr
    set dl : List Segs :=
      r :: perms.read.denied_list.filter (fun q => !(segStartsWith r q))
      with hdl
    set perms' : Permissions :=
      { perms with read := { perms.read with
          denied_list := dl, global_state := .Denied } } with hp
    have hqd : perms'.query_read cwd (some ⟨true, r⟩) = .Denied := by
      rw [query_read_eq_claim]
      rw [show (some (⟨true, r⟩ : RawPath)).map (resolve_from_cwd cwd) =
          some r from by simp [hr, resolve_resolved cwd hnd P]]
      have hb : blockHitP dl r := ⟨r, List.mem_cons_self _ _, Or.inl rfl⟩
      simp [claimPathQuery, hb]
    have hreq : perms'.request_net none true =
        (if perms'.net.global_state = .Prompt then
          .ok (.Granted, { perms' with net := { perms'.net with
            granted_list := [], global_state := .Granted } })
        else .ok (perms'.net.global_state, perms')) := by
      simp only [Permissions.request_net, Permissions.query_net_url]
      split_ifs <;> rfl
    refine ⟨rfl, List.mem_cons_self _ _, ?_, rfl, rfl, ?_, rfl, rfl, rfl, rfl,
      rfl, rfl, ?_, ?_⟩
    · intro d hmem
      rcases List.mem_cons.1 hmem with rfl | hmem
      · rintro ⟨_, hne⟩
        exact hne rfl
      · have hpred := (List.mem_filter.1 hmem).2
        rintro ⟨hpre, _⟩
        rw [(segStartsWith_iff r d).2 hpre] at hpred
        exact Bool.noConfusion hpred
    · simp only [Permissions.check_read,
        Permissions.resolved_and_display_path]
      rw [hqd]
      rfl
    · rw [hreq]
      split_ifs <;> rfl
    · intro st p2 heq
      rw [hreq] at heq
      split_ifs at heq
      · have hpair := Except.ok.inj heq
        have hp2 := congrArg Prod.snd hpair
        simp only at hp2
        rw [← hp2]
        exact ⟨rfl, rfl, rfl, rfl, rfl, rfl⟩
      · have hpair := Except.ok.inj heq
        have hp2 := congrArg Prod.snd hpair
        simp only at hp2
        rw [← hp2]
        exact ⟨rfl, rfl, rfl, rfl, rfl, rfl⟩

/-- C5 witness: from the default state, a denying `request_write("/foo")`
returns `Denied` and afterwards the target-less write query is `Denied`;
likewise for a denying `request_read("/foo")`. -/
theorem c5_request_deny_escalates_witness :
    (Permissions.request_write {} [] (some ⟨true, ["foo"]⟩) false).1 =
      .Denied ∧
    (Permissions.request_write {} [] (some ⟨true, ["foo"]⟩)
        false).2.query_write [] none = .Denied ∧
    (Permissions.request_read {} [] (some ⟨true, ["foo"]⟩) false).1 =
      .Denied ∧
    (Permissions.request_read {} [] (some ⟨true, ["foo"]⟩)
        false).2.query_read [] none = .Denied := by
  have hw := c5_request_deny_escalates.1 {} [] ⟨true, ["foo"]⟩
    (by decide) (by decide)
  have hr := c5_request_deny_escalates.2 {} [] ⟨true, ["foo"]⟩
    (by decide) (by decide)
  exact ⟨hw.1, hw.2.2.2.2.1, hr.1, hr.2.2.2.2.1⟩

theorem mem_filter_not_under (l : List Segs) (r q : Segs) :
    q ∈ l.filter (fun x => !(segStartsWith x r)) ↔ q ∈ l ∧ ¬(r <+: q) := by
  simp only [List.mem_filter]
  constructor
  · rintro ⟨h1, h2⟩
    refine ⟨h1, fun hp => ?_⟩
    rw [(segStartsWith_iff q r).2 hp] at h2
    simp at h2
  · rintro ⟨h1, h2⟩
    refine ⟨h1, ?_⟩
    cases hb : segStartsWith q r with
    | false => rfl
    | true => exact absurd ((segStartsWith_iff q r).1 hb) h2

theorem code_le_if_granted (s : PermissionState) :
    s.code ≤ (if s = .Granted then .Prompt else s).code := by
  cases s <;> decide

/-- C7.  `revoke_read` / `revoke_write` with a target drop from the
allow-list exactly the entries the resolved target is an ancestor of; with
no target they clear the allow-list and move `Granted` to `Prompt`
(`Denied` stays); scalar revokes move `Granted` to `Prompt` and leave any
other state (and the rest of the value) unchanged; every revoke returns
the new query verdict; no revoke moves any state toward `Granted`
(`statesNotLowered`); and with `granted_list = {/foo}` and global
`Prompt`, `revoke_read(/foo/bar)` returns `Granted`, then
`revoke_read(/foo)` returns `Prompt`, after which `query_read(/foo/bar)`
is `Prompt`. -/
theorem c7_revoke_semantics :
    (∀ (perms : Permissions) (cwd : Segs) (P : RawPath),
      (∀ q, q ∈ (perms.revoke_read cwd (some P)).2.read.granted_list ↔
        q ∈ perms.read.granted_list ∧ ¬(resolve_from_cwd cwd P <+: q)) ∧
      (perms.revoke_read cwd (some P)).2.read.global_state =
        perms.read.global_state ∧
      (perms.revoke_read cwd (some P)).2.read.denied_list =
        perms.read.denied_list ∧
      (∀ q, q ∈ (perms.revoke_write cwd (some P)).2.write.granted_list ↔
        q ∈ perms.write.granted_list ∧ ¬(resolve_from_cwd cwd P <+: q)) ∧
      (perms.revoke_write cwd (some P)).2.write.global_state =
        perms.write.global_state) ∧
    (∀ (perms : Permissions) (cwd : Segs),
      (perms.revoke_read cwd none).2.read.granted_list = [] ∧
      (perms.revoke_read cwd none).2.read.global_state =
        (if perms.read.global_state = .Granted then .Prompt
         else perms.read.global_state) ∧
      (perms.revoke_write cwd none).2.write.granted_list = [] ∧
      (perms.revoke_write cwd none).2.write.global_state =
        (if perms.write.global_state = .Granted then .Prompt
         else perms.write.global_state)) ∧
    (∀ perms : Permissions,
      (perms.revoke_env.2.env =
        (if perms.env = .Granted then .Prompt else perms.env)) ∧
      (perms.env ≠ .Granted → perms.revoke_env.2 = perms) ∧
      (perms.revoke_run.2.run =
        (if perms.run = .Granted then .Prompt else perms.run)) ∧
      (perms.run ≠ .Granted → perms.revoke_run.2 = perms) ∧
      (perms.revoke_plugin.2.plugin =
        (if perms.plugin = .Granted then .Prompt else perms.plugin)) ∧
      (perms.plugin ≠ .Granted → perms.revoke_plugin.2 = perms) ∧
      (perms.revoke_hrtime.2.hrtime =
        (if perms.hrtime = .Granted then .Prompt else perms.hrtime)) ∧
      (perms.hrtime ≠ .Granted → perms.revoke_hrtime.2 = perms)) ∧
    (∀ (perms : Permissions) (cwd : Segs) (target : Option RawPath),
      (perms.revoke_read cwd target).1 =
        (perms.revoke_read cwd target).2.query_read cwd target ∧
      (perms.revoke_write cwd target).1 =
        (perms.revoke_write cwd target).2.query_write cwd target) ∧
    (∀ (perms : Permissions) (url : Option String),
      (perms.revoke_net url).1 = (perms.revoke_net url).2.query_net_url url) ∧
    (∀ perms : Permissions,
      perms.revoke_env.1 = perms.revoke_env.2.query_env ∧
      perms.revoke_run.1 = perms.revoke_run.2.query_run ∧
      perms.revoke_plugin.1 = perms.revoke_plugin.2.query_plugin ∧
      perms.revoke_hrtime.1 = perms.revoke_hrtime.2.query_hrtime) ∧
    (∀ (perms : Permissions) (cwd : Segs) (target : Option RawPath)
        (url : Option String),
      statesNotLowered perms (perms.revoke_read cwd target).2 ∧
      statesNotLowered perms (perms.revoke_write cwd target).2 ∧
      statesNotLowered perms (perms.revoke_net url).2 ∧
      statesNotLowered perms perms.revoke_env.2 ∧
      statesNotLowered perms perms.revoke_run.2 ∧
      statesNotLowered perms perms.revoke_plugin.2 ∧
      statesNotLowered perms perms.revoke_hrtime.2) ∧
    (Permissions.revoke_read { read := { granted_list := [["foo"]] } } []
        (some ⟨true, ["foo", "bar"]⟩)).1 = .Granted ∧
    ((Permissions.revoke_read { read := { granted_list := [["foo"]] } } []
        (some ⟨true, ["foo", "bar"]⟩)).2.revoke_read []
        (some ⟨true, ["foo"]⟩)).1 = .Prompt ∧
    ((Permissions.revoke_read { read := { granted_list := [["foo"]] } } []
        (some ⟨true, ["foo", "bar"]⟩)).2.revoke_read []
        (some ⟨true, ["foo"]⟩)).2.query_read []
        (some ⟨true, ["foo", "bar"]⟩) = .Prompt := by
  refine ⟨?_, ?_, ?_, ?_, ?_, ?_, ?_, by decide, by decide, by decide⟩
  · intro perms cwd P
    exact ⟨fun q => mem_filter_not_under _ _ q, rfl, rfl,
      fun q => mem_filter_not_under _ _ q, rfl⟩
  · intro perms cwd
    exact ⟨rfl, rfl, rfl, rfl⟩
  · intro perms
    refine ⟨rfl, fun h => ?_, rfl, fun h => ?_, rfl, fun h => ?_, rfl,
      fun h => ?_⟩ <;>
      simp [Permissions.revoke_env, Permissions.revoke_run,
        Permissions.revoke_plugin, Permissions.revoke_hrtime, if_neg h]
  · intro perms cwd target
    cases target <;> exact ⟨rfl, rfl⟩
  · intro perms url
    cases url <;> rfl
  · intro perms
    exact ⟨rfl, rfl, rfl, rfl⟩
  · intro perms cwd target url
    refine ⟨?_, ?_, ?_, ?_, ?_, ?_, ?_⟩
    · cases target with
      | none =>
        exact ⟨code_le_if_granted _, le_refl _, le_refl _, le_refl _,
          le_refl _, le_refl _, le_refl _⟩
      | some p =>
        exact ⟨le_refl _, le_refl _, le_refl _, le_refl _, le_refl _,
          le_refl _, le_refl _⟩
    · cases target with
      | none =>
        exact ⟨le_refl _, code_le_if_granted _, le_refl _, le_refl _,
          le_refl _, le_refl _, le_refl _⟩
      | some p =>
        exact ⟨le_refl _, le_refl _, le_refl _, le_refl _, le_refl _,
          le_refl _, le_refl _⟩
    · cases url with
      | none =>
        exact ⟨le_refl _, le_refl _, code_le_if_granted _, le_refl _,
          le_refl _, le_refl _, le_refl _⟩
      | some u =>
        exact ⟨le_refl _, le_refl _, le_refl _, le_refl _, le_refl _,
          le_refl _, le_refl _⟩
    · exact ⟨le_refl _, le_refl _, le_refl _, code_le_if_granted _,
        le_refl _, le_refl _, le_refl _⟩
    · exact ⟨le_refl _, le_refl _, le_refl _, le_refl _,
        code_le_if_granted _, le_refl _, le_refl _⟩
    · exact ⟨le_refl _, le_refl _, le_refl _, le_refl _, le_refl _,
        code_le_if_granted _, le_refl _⟩
    · exact ⟨le_refl _, le_refl _, le_refl _, le_refl _, le_refl _,
        le_refl _, code_le_if_granted _⟩

/-- C7 witness: scalar revoke is the identity on a non-granted state. -/
theorem c7_revoke_semantics_witness :
    (Permissions.revoke_env { env := .Denied }).2 =
      ({ env := .Denied } : Permissions) := by
  exact (c7_revoke_semantics.2.2.1 { env := .Denied }).2.1 (by decide)

theorem decimalCharsAux_isDigit (fuel : Nat) :
    ∀ n, ∀ c ∈ decimalCharsAux fuel n, c.isDigit = true := by
  induction fuel with
  | zero =>
    intro n c hc
    exact absurd hc (List.not_mem_nil c)
  | succ fuel ih =>
    intro n c hc
    simp only [decimalCharsAux] at hc
    split at hc
    · rename_i h10
      rcases List.mem_singleton.1 hc with rfl
      unfold digitChar
      interval_cases n <;> decide
    · rcases List.mem_append.1 hc with hc | hc
      · exact ih (n / 10) c hc
      · rcases List.mem_singleton.1 hc with rfl
        unfold digitChar
        have hm : n % 10 < 10 := Nat.mod_lt _ (by omega)
        set m := n % 10 with hmdef
        clear_value m
        interval_cases m <;> decide

theorem decimalChars_isDigit (n : Nat) :
    ∀ c ∈ decimalChars n, c.isDigit = true :=
  decimalCharsAux_isDigit (n + 1) n

theorem parseUrl_host_shape (s : String) (u : Url) (hstr : String)
    (hp : parseUrl s = .ok u) (hh : u.host = some hstr) :
    ∃ pre tail hostChars,
      s.data = pre ++ ':' :: '/' :: '/' :: tail ∧
      hstr.data = hostChars ∧
      hostChars ≠ [] ∧
      hostChars.length ≤ tail.length ∧
      (∀ c ∈ hostChars, c ≠ ':' ∧ c ≠ '/') := by
  unfold parseUrl at hp
  simp only [] at hp
  split at hp
  · rename_i tail heq
    have hsdata : s.data = s.data.takeWhile schemeChar ++
        ':' :: '/' :: '/' :: tail := by
      conv_lhs => rw [← List.takeWhile_append_dropWhile schemeChar s.data]
      rw [heq]
    set authority := tail.takeWhile (fun c => decide (c ≠ '/')) with hauth
    set hostChars := authority.takeWhile (fun c => decide (c ≠ ':')) with hhc
    have hmem : ∀ c ∈ hostChars, c ≠ ':' ∧ c ≠ '/' := by
      intro c hc
      rw [hhc] at hc
      have hca : c ∈ authority := (List.takeWhile_sublist _).subset hc
      rw [hauth] at hca
      have h1 := List.mem_takeWhile_imp hc
      have h2 := List.mem_takeWhile_imp hca
      simp only [decide_eq_true_eq] at h1 h2
      exact ⟨h1, h2⟩
    have hlen : hostChars.length ≤ tail.length := by
      rw [hhc]
      exact le_trans (List.takeWhile_sublist _).length_le
        (by rw [hauth]; exact (List.takeWhile_sublist _).length_le)
    split_ifs at hp with he h1 h2 h3 <;>
      first
        | exact absurd hp (fun hx => Except.noConfusion hx)
        | (have hu := Except.ok.inj hp
           rw [← hu] at hh
           have hhs := Option.some.inj hh
           exact ⟨s.data.takeWhile schemeChar, tail, hostChars, hsdata,
             by rw [← hhs], fun hnil => he (List.isEmpty_iff.2 hnil), hlen,
             hmem⟩)
  · rename_i tail heq
    have hu := Except.ok.inj hp
    rw [← hu] at hh
    exact Option.noConfusion hh
  · exact absurd hp (fun hx => Except.noConfusion hx)

theorem url_string_ne_hostport (s : String) (u : Url) (hstr : String)
    (hp : parseUrl s = .ok u) (hh : u.host = some hstr) :
    hstr ≠ s ∧ ∀ p : Nat, hstr ++ ":" ++ decimalRepr p ≠ s := by
  obtain ⟨pre, tail, hostChars, hsd, hhd, hnil, hlen, hmem⟩ :=
    parseUrl_host_shape s u hstr hp hh
  constructor
  · intro heq
    have hd : hstr.data = s.data := by rw [heq]
    rw [hhd, hsd] at hd
    have hlen2 := congrArg List.length hd
    simp [List.length_append] at hlen2
    omega
  · intro p heq
    have hd : (hstr ++ ":" ++ decimalRepr p).data = s.data := by rw [heq]
    rw [String.data_append, String.data_append, hhd] at hd
    have hslash : ('/' : Char) ∈
        hostChars ++ (":" : String).data ++ (decimalRepr p).data := by
      rw [hd, hsd]
      exact List.mem_append.2 (Or.inr (by simp))
    rcases List.mem_append.1 hslash with hin | hin
    · rcases List.mem_append.1 hin with hin | hin
      · exact (hmem '/' hin).2 rfl
      · have h2 := List.mem_singleton.1 hin
        exact absurd h2 (by decide)
    · have h3 := decimalChars_isDigit p '/' hin
      exact absurd h3 (by decide)

theorem check_empty_list (host : String) (port : Option Nat) :
    check_host_and_port_list host port [] = false := by
  cases port <;> rfl

theorem check_single_url_false (s : String) (u : Url) (hstr : String)
    (hp : parseUrl s = .ok u) (hh : u.host = some hstr) (port : Option Nat) :
    check_host_and_port_list hstr port [s] = false := by
  have hne := url_string_ne_hostport s u hstr hp hh
  have hc1 : ([s].contains hstr) = false := by
    rw [Bool.eq_false_iff]
    intro hc
    exact hne.1 (List.mem_singleton.1 ((contains_iff_mem _ _).1 hc))
  unfold check_host_and_port_list
  rw [hc1]
  cases port with
  | none => rfl
  | some p =>
    have hc2 : ([s].contains (hstr ++ ":" ++ decimalRepr p)) = false := by
      rw [Bool.eq_false_iff]
      intro hc
      exact hne.2 p (List.mem_singleton.1 ((contains_iff_mem _ _).1 hc))
    simp [hc2]
    exact hne.2 p


/-- C6.  Host matching hits a set iff it contains the bare host or, when a
port is present, the literal `"host:port"` (byte-exact); a URL query with
no URL reports `net.global_state`; a parsed URL without a host fails with
a `URIError`; with a host, matching uses the host and the effective port
(the explicit port if set, else the scheme's well-known default — 443 for
https, 80 for http); concretely, `https://www.github.com:443/robots.txt`
passes against allow-list entry `www.github.com:443` while
`https://github.com/denoland/deno` fails against `github.com:3000`. -/
theorem c6_host_url_matching :
    (∀ (host : String) (port : Option Nat) (s : List String),
      check_host_and_port_list host port s = true ↔ netHitP s host port) ∧
    (∀ perms : Permissions,
      perms.query_net_url none = .ok perms.net.global_state) ∧
    (∀ (perms : Permissions) (s : String) (u : Url),
      parseUrl s = .ok u → u.host = none →
      perms.query_net_url (some s) =
        .error ⟨"URIError",
          "invalid urlormat: <scheme>://<host>[:port][/subpath]"⟩) ∧
    (∀ (perms : Permissions) (s : String) (u : Url) (h : String),
      parseUrl s = .ok u → u.host = some h →
      perms.query_net_url (some s) =
        .ok (perms.query_net h u.port_or_known_default)) ∧
    (∀ u : Url, u.port_or_known_default =
      (match u.port with
       | some p => some p
       | none => defaultPort u.scheme)) ∧
    defaultPort "https" = some 443 ∧
    defaultPort "http" = some 80 ∧
    parseUrl "https://www.github.com:443/robots.txt" =
      .ok ⟨"https", some "www.github.com", some 443⟩ ∧
    Permissions.check_net_url
        { net := ⟨.Prompt, ["www.github.com:443"], []⟩ }
        ⟨"https", some "www.github.com", some 443⟩ = .ok () ∧
    parseUrl "https://github.com/denoland/deno" =
      .ok ⟨"https", some "github.com", none⟩ ∧
    isOkE (Permissions.check_net_url
        { net := ⟨.Prompt, ["github.com:3000"], []⟩ }
        ⟨"https", some "github.com", none⟩) = false := by
  refine ⟨check_host_and_port_list_iff, fun perms => rfl, ?_, ?_,
    fun u => rfl, rfl, rfl, by decide, by decide, by decide, by decide⟩
  · intro perms s u hp hh
    simp only [Permissions.query_net_url, hp, hh]
  · intro perms s u h hp hh
    simp only [Permissions.query_net_url, hp, hh]

/-- C6 witness: the no-host and with-host clauses applied to concrete
URLs. -/
theorem c6_host_url_matching_witness :
    Permissions.query_net_url {} (some "mailto:someone@somewhere.com") =
      .error ⟨"URIError",
        "invalid urlormat: <scheme>://<host>[:port][/subpath]"⟩ ∧
    Permissions.query_net_url {} (some "https://a:1/b") =
      .ok (Permissions.query_net {} "a"
        (Url.port_or_known_default ⟨"https", some "a", some 1⟩)) := by
  refine ⟨c6_host_url_matching.2.2.1 {} "mailto:someone@somewhere.com"
      ⟨"mailto", none, none⟩ (by decide) rfl, ?_⟩
  exact c6_host_url_matching.2.2.2.1 {} "https://a:1/b"
    ⟨"https", some "a", some 1⟩ "a" (by decide) rfl

/-- C10.  From `net = (Prompt, ∅, ∅)`, granting `request_net(url)` for a
URL with a scheme and host inserts the full URL string into
`granted_list`; that entry can match no host/port pair (the URL string
differs from the bare host and from every `"host:port"` literal), so an
immediate `query_net_url` of the same URL is still `Prompt`.  A denying
prompt inserts the URL string into `denied_list`, where it can likewise
never match; the denial takes effect only through `global_state`
becoming `Denied`. -/
theorem c10_net_grant_unmatchable :
    ∀ (perms : Permissions) (s : String) (u : Url) (h : String),
      parseUrl s = .ok u → u.host = some h →
      perms.net = ⟨.Prompt, [], []⟩ →
      (perms.request_net (some s) true =
        .ok (.Granted, { perms with net := ⟨.Prompt, [s], []⟩ }) ∧
      ({ perms with net := ⟨.Prompt, [s], []⟩ } :
        Permissions).query_net_url (some s) = .ok .Prompt) ∧
      (perms.request_net (some s) false =
        .ok (.Denied, { perms with net := ⟨.Denied, [], [s]⟩ }) ∧
      (∀ port : Option Nat, check_host_and_port_list h port [s] = false) ∧
      ({ perms with net := ⟨.Denied, [], [s]⟩ } :
        Permissions).query_net_url (some s) = .ok .Denied) := by
  intro perms s u h hp hh hnet
  have hnomatch : ∀ port, check_host_and_port_list h port [s] = false :=
    check_single_url_false s u h hp hh
  have hq0 : perms.query_net_url (some s) = .ok .Prompt := by
    simp only [Permissions.query_net_url, hp, hh]
    unfold Permissions.query_net
    rw [hnet]
    simp [check_empty_list]
  have hq1 : ({ perms with net := ⟨.Prompt, [s], []⟩} :
      Permissions).query_net_url (some s) = .ok .Prompt := by
    simp only [Permissions.query_net_url, hp, hh]
    unfold Permissions.query_net
    simp [hnomatch, check_empty_list]
  have hq2 : ({ perms with net := ⟨.Denied, [], [s]⟩ } :
      Permissions).query_net_url (some s) = .ok .Denied := by
    simp only [Permissions.query_net_url, hp, hh]
    unfold Permissions.query_net
    simp
  refine ⟨⟨?_, hq1⟩, ?_, hnomatch, hq2⟩
  · simp only [Permissions.request_net, hq0]
    simp [hnet, hsInsert]
  · simp only [Permissions.request_net, hq0]
    simp [hnet, hsInsert]

/-- C10 witness: the grant side evaluated at `http://127.0.0.1:8000`. -/
theorem c10_net_grant_unmatchable_witness :
    Permissions.request_net {} (some "http://127.0.0.1:8000") true =
      .ok (.Granted,
        { net := ⟨.Prompt, ["http://127.0.0.1:8000"], []⟩ }) ∧
    Permissions.query_net_url
        { net := ⟨.Prompt, ["http://127.0.0.1:8000"], []⟩ }
        (some "http://127.0.0.1:8000") = .ok .Prompt := by
  have h := c10_net_grant_unmatchable {} "http://127.0.0.1:8000"
    ⟨"http", some "127.0.0.1", some 8000⟩ "127.0.0.1" (by decide) rfl rfl
  exact ⟨h.1.1, h.1.2⟩

end DenoPerm
